import Mathlib

/-!
SAM output of bowtie2 (`sam.cpp`): embedding and verified properties.

The output buffer `OutFileBuf` is modelled by the list of characters written
to it so far; every writing function takes the buffer and returns the buffer
it leaves.  A C `char` is modelled by a Lean `Char`, a `std::string` and a
C string by a `List Char`.  `size_t` values are natural numbers, with the
one subtraction of the source (`size()-1`) taken modulo `2^64`.
-/

namespace Sam

/-! ## Output buffer -/

/-- The bytes written so far to an `OutFileBuf`. -/
abbrev OutFileBuf := List Char

/-- Embedding of `o.write(c)`: append one character. -/
def write (o : OutFileBuf) (c : Char) : OutFileBuf := o ++ [c]

/-- Embedding of `o.writeChars(s)`: append a C string. -/
def writeChars (o : OutFileBuf) (s : List Char) : OutFileBuf := o ++ s

/-- Embedding of `o.writeString(s)`: append a `std::string`. -/
def writeString (o : OutFileBuf) (s : List Char) : OutFileBuf := o ++ s

/-- The C library test `isspace` in the "C" locale: space, `\t`, `\n`, `\v`,
`\f` and `\r`. -/
def isspace (c : Char) : Bool :=
  c.toNat == 32 || (9 ≤ c.toNat && c.toNat ≤ 13)

/-- Modelled from the spec: `itoa10<size_t>` is declared in a header that is
not part of `sam.cpp`; it renders an unsigned value in decimal. -/
def itoa10 (n : Nat) : List Char := Nat.toDigits 10 n

/-- Modelled from the spec: `itoa10<TAlScore>` is declared in a header that is
not part of `sam.cpp`; it renders a signed value in decimal, with a leading
minus sign for a negative one. -/
def itoa10Score : Int → List Char
  | Int.ofNat n => Nat.toDigits 10 n
  | Int.negSucc n => '-' :: Nat.toDigits 10 (n + 1)

/-! ## Data model -/

/-- Modelled from the spec: the kinds of an `Edit` (declared in a header that
is not part of `sam.cpp`).  The scan tests `isMismatch`, `isReadGap` and
`isRefGap` in turn and has no final `else`; `other` stands for an entry for
which the three tests are all false. -/
inductive EditKind where
  | mismatch
  | readGap
  | refGap
  | other
  deriving DecidableEq, Repr

/-- Modelled from the spec: an `Edit` carries an unsigned position and a
kind.  The width of the position field is declared outside `sam.cpp`; the
position is a natural number here, and `pos + 1` does not wrap. -/
structure Edit where
  pos : Nat
  kind : EditKind
  deriving DecidableEq, Repr

namespace Edit

def isMismatch (e : Edit) : Bool := e.kind == EditKind.mismatch

def isReadGap (e : Edit) : Bool := e.kind == EditKind.readGap

def isRefGap (e : Edit) : Bool := e.kind == EditKind.refGap

end Edit

/-- An alignment score `AlnScore`: `valid()` and `score()`. -/
structure AlnScore where
  valid : Bool
  score : Int

/-- The parts of `AlnRes` that `sam.cpp` reads.  `printMD exEnds` is the text
that `res.printMD(false, exEnds, ...)` writes to the buffer. -/
structure AlnRes where
  score : AlnScore
  oscore : AlnScore
  color : Bool
  refNs : Nat
  ned : List Edit
  printMD : Bool → List Char

/-- The parts of `AlnFlags` that `sam.cpp` reads.  `printYT`, `printYP` and
`printYM` are the texts that the methods of these names write; `printYF`
gets the separator state and returns the text it writes and its `bool`
result. -/
structure AlnFlags where
  partOfPair : Bool
  canMax : Bool
  isMixedMode : Bool
  filtered : Bool
  printYT : List Char
  printYP : List Char
  printYM : List Char
  printYF : Bool → List Char × Bool

/-- The parts of `AlnSetSumm` that `sam.cpp` reads. -/
structure AlnSetSumm where
  paired : Bool
  secbestMate : Bool → AlnScore

/-- The parts of `Read` that `sam.cpp` reads. -/
structure Read where
  patFw : List Char
  qual : List Char
  primer : Char
  trimc : Char
  mate : Int

/-- The fields of `SamConfig` that `sam.cpp` reads. -/
structure SamConfig where
  refnames_ : List (List Char)
  reflens_ : List Nat
  pg_id_ : List Char
  pg_pn_ : List Char
  pg_vn_ : List Char
  rgs_ : List Char
  print_as_ : Bool
  print_xs_ : Bool
  print_xn_ : Bool
  print_cs_ : Bool
  print_cq_ : Bool
  print_x0_ : Bool
  print_x1_ : Bool
  print_xm_ : Bool
  print_xo_ : Bool
  print_xg_ : Bool
  print_nm_ : Bool
  print_md_ : Bool
  print_yf_ : Bool
  print_yi_ : Bool
  print_ym_ : Bool
  print_yp_ : Bool
  print_yt_ : Bool
  print_ys_ : Bool

/-! ## Header -/

/-- Embedding of `SamConfig::printRefName`: copy the name up to its first whitespace
character. -/
def printRefName (o : OutFileBuf) : List Char → OutFileBuf
  | [] => o
  | c :: rest => if isspace c then o else printRefName (write o c) rest

/-- Embedding of `SamConfig::printHdLine`. -/
def printHdLine (o : OutFileBuf) (samver : List Char) : OutFileBuf :=
  let o := writeChars o "@HD\tVN:".toList
  let o := writeChars o samver
  writeChars o "\tSO:unsorted\n".toList

/-- The loop of `SamConfig::printSqLines`, with `k` iterations left and at
index `i`; `none` when `refnames_[i]` or `reflens_[i]` is out of bounds. -/
def printSqLinesLoop (cfg : SamConfig) : Nat → Nat → OutFileBuf → Option OutFileBuf
  | 0, _, o => some o
  | k + 1, i, o =>
    match cfg.refnames_[i]?, cfg.reflens_[i]? with
    | some name, some len =>
      let o := writeChars o "@SQ\tSN:".toList
      let o := printRefName o name
      let o := writeChars o "\tLN:".toList
      let o := writeChars o (itoa10 len)
      let o := write o '\n'
      printSqLinesLoop cfg k (i + 1) o
    | _, _ => none

/-- Embedding of `SamConfig::printSqLines`. -/
def printSqLines (cfg : SamConfig) (o : OutFileBuf) : Option OutFileBuf :=
  printSqLinesLoop cfg cfg.refnames_.length 0 o

/-- Embedding of `SamConfig::printPgLine`. -/
def printPgLine (cfg : SamConfig) (o : OutFileBuf) : OutFileBuf :=
  let o := writeChars o "@PG\tID:".toList
  let o := writeString o cfg.pg_id_
  let o := writeChars o "\tPN:".toList
  let o := writeString o cfg.pg_pn_
  let o := writeChars o "\tVN:".toList
  let o := writeString o cfg.pg_vn_
  write o '\n'

/-- Embedding of `SamConfig::printHeader`. -/
def printHeader (cfg : SamConfig) (o : OutFileBuf) (rgid rgs : List Char)
    (printHd printSq printPg : Bool) : Option OutFileBuf :=
  let o := if printHd then printHdLine o "1.0".toList else o
  match (if printSq then printSqLines cfg o else some o) with
  | none => none
  | some o =>
    let o :=
      if !rgid.isEmpty then
        let o := writeChars o "@RG".toList
        let o := writeString o rgid
        let o := writeString o rgs
        write o '\n'
      else o
    some (if printPg then printPgLine cfg o else o)

/-! ## Optional flags -/

/-- The macro `WRITE_SEP()`: write a tab unless this is the first field, then
clear `first`.  The state is the buffer and the local variable `first`. -/
def WRITE_SEP (s : OutFileBuf × Bool) : OutFileBuf × Bool :=
  (if !s.2 then write s.1 '\t' else s.1, false)

/-- The value of `res.ned().size()-1`, a subtraction of `size_t` values, hence
modulo `2^64`. -/
def sizeMinus1 (size : Nat) : Nat := (size + 2 ^ 64 - 1) % 2 ^ 64

/-- The three counters of the gap-run scan. -/
structure GapCounts where
  num_mm : Nat
  num_go : Nat
  num_gx : Nat
  deriving DecidableEq, Repr

/-- The inner `while` of the `isReadGap` branch, started at index `i` with
counter `num_gx`; it returns the final `i` and `num_gx`.  `none` when an
element access is out of bounds or the fuel runs out. -/
def readGapLoop (ned : List Edit) : Nat → Nat → Nat → Option (Nat × Nat)
  | 0, _, _ => none
  | fuel + 1, i, num_gx =>
    if i < sizeMinus1 ned.length then
      match ned[i + 1]?, ned[i]? with
      | some nxt, some cur =>
        if nxt.pos == cur.pos && nxt.isReadGap then
          readGapLoop ned fuel (i + 1) (num_gx + 1)
        else some (i, num_gx)
      | _, _ => none
    else some (i, num_gx)

/-- The inner `while` of the `isRefGap` branch, started at index `i` with
counter `num_gx`; it returns the final `i` and `num_gx`.  `none` when an
element access is out of bounds or the fuel runs out. -/
def refGapLoop (ned : List Edit) : Nat → Nat → Nat → Option (Nat × Nat)
  | 0, _, _ => none
  | fuel + 1, i, num_gx =>
    if i < sizeMinus1 ned.length then
      match ned[i + 1]?, ned[i]? with
      | some nxt, some cur =>
        if nxt.pos == cur.pos + 1 && nxt.isRefGap then
          refGapLoop ned fuel (i + 1) (num_gx + 1)
        else some (i, num_gx)
      | _, _ => none
    else some (i, num_gx)

/-- The outer `for` of the gap-run scan at index `i` with counters `c`.
`none` when an element access is out of bounds or the fuel runs out.  An
inner loop gets the size as fuel: it advances the index fewer than `size`
times.  The counters are natural numbers: they stay below the size. -/
def scanLoop (ned : List Edit) : Nat → Nat → GapCounts → Option GapCounts
  | 0, _, _ => none
  | fuel + 1, i, c =>
    if i < ned.length then
      match ned[i]? with
      | none => none
      | some e =>
        if e.isMismatch then
          scanLoop ned fuel (i + 1) { c with num_mm := c.num_mm + 1 }
        else if e.isReadGap then
          match readGapLoop ned ned.length i (c.num_gx + 1) with
          | none => none
          | some r =>
            scanLoop ned fuel (r.1 + 1) { c with num_go := c.num_go + 1, num_gx := r.2 }
        else if e.isRefGap then
          match refGapLoop ned ned.length i (c.num_gx + 1) with
          | none => none
          | some r =>
            scanLoop ned fuel (r.1 + 1) { c with num_go := c.num_go + 1, num_gx := r.2 }
        else scanLoop ned fuel (i + 1) c
    else some c

/-- The gap-run scan of `printAlignedOptFlags`: `num_mm`, `num_go` and
`num_gx` start at zero and the index at zero.  Every pass of the outer loop
advances the index, so `size + 1` passes are enough fuel. -/
def gapScan (ned : List Edit) : Option GapCounts :=
  scanLoop ned (ned.length + 1) 0 ⟨0, 0, 0⟩

/-- Embedding of `SamConfig::printAlignedOptFlags`.  The assertions of the
source are not modelled.  `none` when the gap-run scan reads out of bounds. -/
def printAlignedOptFlags (cfg : SamConfig) (o : OutFileBuf) (first exEnds : Bool)
    (rd : Read) (res : AlnRes) (flags : AlnFlags) (summ : AlnSetSumm)
    (mapqInp : List Char) : Option OutFileBuf :=
  let s : OutFileBuf × Bool := (o, first)
  let s :=
    if cfg.print_as_ then
      let buf := itoa10Score res.score.score
      let s := WRITE_SEP s
      let o := writeChars s.1 "AS:i:".toList
      (writeChars o buf, s.2)
    else s
  let s :=
    if res.color then
      let s :=
        if cfg.print_cs_ then
          let s := WRITE_SEP s
          let o := writeChars s.1 "CS:Z:".toList
          let o := if rd.primer != '?' then write (write o rd.primer) rd.trimc else o
          (writeString o rd.patFw, s.2)
        else s
      if cfg.print_cq_ then
        let s := WRITE_SEP s
        let o := writeChars s.1 "CQ:Z:".toList
        (writeString o rd.qual, s.2)
      else s
    else s
  let s :=
    if cfg.print_xs_ then
      let sc := summ.secbestMate (decide (rd.mate < 2))
      let buf := itoa10Score (if sc.valid then sc.score else 0)
      let s := WRITE_SEP s
      let o := writeChars s.1 "XS:i:".toList
      (writeChars o buf, s.2)
    else s
  let s :=
    if cfg.print_xn_ then
      let buf := itoa10 res.refNs
      let s := WRITE_SEP s
      let o := writeChars s.1 "XN:i:".toList
      (writeChars o buf, s.2)
    else s
  let s := if cfg.print_x0_ then s else s
  let s := if cfg.print_x1_ then s else s
  match gapScan res.ned with
  | none => none
  | some cnt =>
    let s :=
      if cfg.print_xm_ then
        let buf := itoa10 cnt.num_mm
        let s := WRITE_SEP s
        let o := writeChars s.1 "XM:i:".toList
        (writeChars o buf, s.2)
      else s
    let s :=
      if cfg.print_xo_ then
        let buf := itoa10 cnt.num_go
        let s := WRITE_SEP s
        let o := writeChars s.1 "XO:i:".toList
        (writeChars o buf, s.2)
      else s
    let s :=
      if cfg.print_xg_ then
        let buf := itoa10 cnt.num_gx
        let s := WRITE_SEP s
        let o := writeChars s.1 "XG:i:".toList
        (writeChars o buf, s.2)
      else s
    let s :=
      if cfg.print_nm_ then
        let buf := itoa10 res.ned.length
        let s := WRITE_SEP s
        let o := writeChars s.1 "NM:i:".toList
        (writeChars o buf, s.2)
      else s
    let s :=
      if cfg.print_md_ then
        let s := WRITE_SEP s
        let o := writeChars s.1 "MD:Z:".toList
        (writeChars o (res.printMD exEnds), s.2)
      else s
    let s :=
      if cfg.print_ys_ && summ.paired then
        let buf := itoa10Score res.oscore.score
        let s := WRITE_SEP s
        let o := writeChars s.1 "YS:i:".toList
        (writeChars o buf, s.2)
      else s
    let s :=
      if cfg.print_yt_ then
        let s := WRITE_SEP s
        (writeChars s.1 flags.printYT, s.2)
      else s
    let s :=
      if cfg.print_yp_ && flags.partOfPair && flags.canMax then
        let s := WRITE_SEP s
        (writeChars s.1 flags.printYP, s.2)
      else s
    let s :=
      if cfg.print_ym_ && flags.canMax && (flags.isMixedMode || !flags.partOfPair) then
        let s := WRITE_SEP s
        (writeChars s.1 flags.printYM, s.2)
      else s
    let s :=
      if cfg.print_yf_ && flags.filtered then
        let r := flags.printYF s.2
        (writeChars s.1 r.1, r.2 && s.2)
      else s
    let s :=
      if cfg.print_yi_ then
        if !mapqInp.isEmpty then
          let s := WRITE_SEP s
          let o := writeChars s.1 "YI:Z:".toList
          (writeChars o mapqInp, s.2)
        else s
      else s
    let s :=
      if !cfg.rgs_.isEmpty then
        let s := WRITE_SEP s
        (writeString s.1 cfg.rgs_, s.2)
      else s
    some s.1

/-- Embedding of `SamConfig::printEmptyOptFlags`. -/
def printEmptyOptFlags (cfg : SamConfig) (o : OutFileBuf) (first : Bool)
    (flags : AlnFlags) (_summ : AlnSetSumm) : OutFileBuf :=
  let s : OutFileBuf × Bool := (o, first)
  let s :=
    if cfg.print_yt_ then
      let s := WRITE_SEP s
      (writeChars s.1 flags.printYT, s.2)
    else s
  let s :=
    if cfg.print_yp_ && flags.partOfPair && flags.canMax then
      let s := WRITE_SEP s
      (writeChars s.1 flags.printYP, s.2)
    else s
  let s :=
    if cfg.print_ym_ && flags.canMax && (flags.isMixedMode || !flags.partOfPair) then
      let s := WRITE_SEP s
      (writeChars s.1 flags.printYM, s.2)
    else s
  let s :=
    if cfg.print_yf_ && flags.filtered then
      let r := flags.printYF s.2
      (writeChars s.1 r.1, r.2 && s.2)
    else s
  let s :=
    if !cfg.rgs_.isEmpty then
      let s := WRITE_SEP s
      (writeString s.1 cfg.rgs_, s.2)
    else s
  s.1

/-! ## Reference definitions

The definitions below do not come from `sam.cpp`: they state what the
functions above are expected to compute. -/

/-- A reference name cut at its first whitespace character. -/
def sanitizedName (name : List Char) : List Char :=
  name.takeWhile (fun c => !isspace c)

/-- The `@SQ` line of one reference. -/
def sqLine (name : List Char) (len : Nat) : List Char :=
  "@SQ\tSN:".toList ++ sanitizedName name ++ "\tLN:".toList ++ Nat.toDigits 10 len
    ++ "\n".toList

/-- The `@SQ` lines of a catalog given as (name, length) pairs, in catalog
order. -/
def sqBlock : List (List Char × Nat) → List Char
  | [] => []
  | r :: rest => sqLine r.1 r.2 ++ sqBlock rest

/-- The `@HD` line. -/
def hdLine : List Char := "@HD\tVN:1.0\tSO:unsorted\n".toList

/-- The `@RG` line for a read-group identifier and body. -/
def rgLine (rgid rgs : List Char) : List Char :=
  "@RG".toList ++ rgid ++ rgs ++ "\n".toList

/-- The `@PG` line. -/
def pgLine (cfg : SamConfig) : List Char :=
  "@PG\tID:".toList ++ cfg.pg_id_ ++ "\tPN:".toList ++ cfg.pg_pn_ ++ "\tVN:".toList
    ++ cfg.pg_vn_ ++ "\n".toList

/-- The states of the one-pass gap-run machine; a run state remembers the
position of the gap entry read last. -/
inductive RunState where
  | normal
  | inReadGapRun (pos : Nat)
  | inRefGapRun (pos : Nat)
  deriving DecidableEq, Repr

/-- One step of the gap-run machine: a mismatch is counted and ends any run; a
gap entry extends the current run when it has the run's kind and the adjacent
position (read gap: the same position, reference gap: the position after),
and opens a new run otherwise. -/
def machineStep (s : RunState × GapCounts) (e : Edit) : RunState × GapCounts :=
  match e.kind with
  | EditKind.mismatch => (RunState.normal, { s.2 with num_mm := s.2.num_mm + 1 })
  | EditKind.readGap =>
    match s.1 with
    | RunState.inReadGapRun p =>
      if e.pos = p then
        (RunState.inReadGapRun e.pos, { s.2 with num_gx := s.2.num_gx + 1 })
      else
        (RunState.inReadGapRun e.pos,
          { s.2 with num_go := s.2.num_go + 1, num_gx := s.2.num_gx + 1 })
    | _ =>
      (RunState.inReadGapRun e.pos,
        { s.2 with num_go := s.2.num_go + 1, num_gx := s.2.num_gx + 1 })
  | EditKind.refGap =>
    match s.1 with
    | RunState.inRefGapRun p =>
      if e.pos = p + 1 then
        (RunState.inRefGapRun e.pos, { s.2 with num_gx := s.2.num_gx + 1 })
      else
        (RunState.inRefGapRun e.pos,
          { s.2 with num_go := s.2.num_go + 1, num_gx := s.2.num_gx + 1 })
    | _ =>
      (RunState.inRefGapRun e.pos,
        { s.2 with num_go := s.2.num_go + 1, num_gx := s.2.num_gx + 1 })
  | EditKind.other => (RunState.normal, s.2)

/-- The counts of the one-pass gap-run machine on an edit list. -/
def gapMachine (ned : List Edit) : GapCounts :=
  (ned.foldl machineStep (RunState.normal, ⟨0, 0, 0⟩)).2

/-- Whether `e` is a gap of the same kind as its predecessor `prev` at the
adjacent position. -/
def continuesRun (prev e : Edit) : Bool :=
  (prev.isReadGap && e.isReadGap && e.pos == prev.pos) ||
  (prev.isRefGap && e.isRefGap && e.pos == prev.pos + 1)

/-- Whether `e`, with the given predecessor if any, starts a gap run. -/
def startsRun (prev : Option Edit) (e : Edit) : Bool :=
  (e.isReadGap || e.isRefGap) &&
  match prev with
  | none => true
  | some p => !continuesRun p e

/-- The number of gap entries that start a gap run, in a list whose first
entry has the given predecessor. -/
def countRunStarts : Option Edit → List Edit → Nat
  | _, [] => 0
  | prev, e :: rest => (if startsRun prev e then 1 else 0) + countRunStarts (some e) rest

/-- The rows of the optional-field table, in the declared order. -/
inductive Tag where
  | AS | CS | CQ | XS | XN | XM | XO | XG | NM | MD | YS | YT | YP | YM | YF | YI | RG
  deriving DecidableEq, Repr

/-- The seventeen rows in the declared order. -/
def allTags : List Tag :=
  [Tag.AS, Tag.CS, Tag.CQ, Tag.XS, Tag.XN, Tag.XM, Tag.XO, Tag.XG, Tag.NM, Tag.MD,
   Tag.YS, Tag.YT, Tag.YP, Tag.YM, Tag.YF, Tag.YI, Tag.RG]

/-- The condition of a row: its toggle together with its row condition. -/
def rowActive (cfg : SamConfig) (res : AlnRes) (flags : AlnFlags) (summ : AlnSetSumm)
    (mapqInp : List Char) : Tag → Bool
  | Tag.AS => cfg.print_as_
  | Tag.CS => cfg.print_cs_ && res.color
  | Tag.CQ => cfg.print_cq_ && res.color
  | Tag.XS => cfg.print_xs_
  | Tag.XN => cfg.print_xn_
  | Tag.XM => cfg.print_xm_
  | Tag.XO => cfg.print_xo_
  | Tag.XG => cfg.print_xg_
  | Tag.NM => cfg.print_nm_
  | Tag.MD => cfg.print_md_
  | Tag.YS => cfg.print_ys_ && summ.paired
  | Tag.YT => cfg.print_yt_
  | Tag.YP => cfg.print_yp_ && flags.partOfPair && flags.canMax
  | Tag.YM => cfg.print_ym_ && flags.canMax && (flags.isMixedMode || !flags.partOfPair)
  | Tag.YF => cfg.print_yf_ && flags.filtered
  | Tag.YI => cfg.print_yi_ && !mapqInp.isEmpty
  | Tag.RG => !cfg.rgs_.isEmpty

/-- The rows whose condition holds, in the declared order. -/
def activeTags (cfg : SamConfig) (res : AlnRes) (flags : AlnFlags) (summ : AlnSetSumm)
    (mapqInp : List Char) : List Tag :=
  allTags.filter (rowActive cfg res flags summ mapqInp)

/-- The text of a field, without its separator.  The `YF` row has none here:
its bytes are those of `printYF`. -/
def fieldText (cfg : SamConfig) (exEnds : Bool) (rd : Read) (res : AlnRes)
    (flags : AlnFlags) (summ : AlnSetSumm) (mapqInp : List Char) (cnt : GapCounts) :
    Tag → List Char
  | Tag.AS => "AS:i:".toList ++ itoa10Score res.score.score
  | Tag.CS =>
    "CS:Z:".toList ++ (if rd.primer != '?' then [rd.primer, rd.trimc] else []) ++ rd.patFw
  | Tag.CQ => "CQ:Z:".toList ++ rd.qual
  | Tag.XS =>
    "XS:i:".toList ++
      itoa10Score (if (summ.secbestMate (decide (rd.mate < 2))).valid
        then (summ.secbestMate (decide (rd.mate < 2))).score else 0)
  | Tag.XN => "XN:i:".toList ++ itoa10 res.refNs
  | Tag.XM => "XM:i:".toList ++ itoa10 cnt.num_mm
  | Tag.XO => "XO:i:".toList ++ itoa10 cnt.num_go
  | Tag.XG => "XG:i:".toList ++ itoa10 cnt.num_gx
  | Tag.NM => "NM:i:".toList ++ itoa10 res.ned.length
  | Tag.MD => "MD:Z:".toList ++ res.printMD exEnds
  | Tag.YS => "YS:i:".toList ++ itoa10Score res.oscore.score
  | Tag.YT => flags.printYT
  | Tag.YP => flags.printYP
  | Tag.YM => flags.printYM
  | Tag.YF => []
  | Tag.YI => "YI:Z:".toList ++ mapqInp
  | Tag.RG => cfg.rgs_

/-- Writing one field: `YF` hands the separator state to `printYF` and keeps
`first` only when `printYF` returns true; every other field writes a tab
unless it is the first, then its text. -/
def emitField (cfg : SamConfig) (exEnds : Bool) (rd : Read) (res : AlnRes)
    (flags : AlnFlags) (summ : AlnSetSumm) (mapqInp : List Char) (cnt : GapCounts)
    (s : OutFileBuf × Bool) : Tag → OutFileBuf × Bool
  | Tag.YF => (s.1 ++ (flags.printYF s.2).1, (flags.printYF s.2).2 && s.2)
  | t =>
    ((if s.2 then s.1 else s.1 ++ ['\t']) ++ fieldText cfg exEnds rd res flags summ mapqInp cnt t,
      false)

/-- Writing a list of fields one after the other. -/
def renderFields (cfg : SamConfig) (exEnds : Bool) (rd : Read) (res : AlnRes)
    (flags : AlnFlags) (summ : AlnSetSumm) (mapqInp : List Char) (cnt : GapCounts)
    (s : OutFileBuf × Bool) (ts : List Tag) : OutFileBuf × Bool :=
  ts.foldl (emitField cfg exEnds rd res flags summ mapqInp cnt) s

/-- The number of optional-field toggles that are switched on. -/
def togglesOn (cfg : SamConfig) : Nat :=
  ([cfg.print_as_, cfg.print_cs_, cfg.print_cq_, cfg.print_xs_, cfg.print_xn_,
    cfg.print_xm_, cfg.print_xo_, cfg.print_xg_, cfg.print_nm_, cfg.print_md_,
    cfg.print_ys_, cfg.print_yt_, cfg.print_yp_, cfg.print_ym_, cfg.print_yf_,
    cfg.print_yi_].filter id).length

/-- The state of the gap-run machine after reading an entry (`normal` before
the first entry). -/
def stateAfter : Option Edit → RunState
  | none => RunState.normal
  | some p =>
    match p.kind with
    | EditKind.readGap => RunState.inReadGapRun p.pos
    | EditKind.refGap => RunState.inRefGapRun p.pos
    | _ => RunState.normal

/-- The texts one after the other, each preceded by a tab. -/
def tabbed : List (List Char) → List Char
  | [] => []
  | t :: rest => '\t' :: (t ++ tabbed rest)

/-- The texts one after the other, separated by single tabs. -/
def joined : List (List Char) → List Char
  | [] => []
  | t :: rest => t ++ tabbed rest

/-! ## Concrete inputs -/

/-- A configuration with an empty catalog, empty strings and every toggle
off. -/
def emptyConfig : SamConfig :=
  { refnames_ := [], reflens_ := [], pg_id_ := [], pg_pn_ := [], pg_vn_ := [], rgs_ := [],
    print_as_ := false, print_xs_ := false, print_xn_ := false, print_cs_ := false,
    print_cq_ := false, print_x0_ := false, print_x1_ := false, print_xm_ := false,
    print_xo_ := false, print_xg_ := false, print_nm_ := false, print_md_ := false,
    print_yf_ := false, print_yi_ := false, print_ym_ := false, print_yp_ := false,
    print_yt_ := false, print_ys_ := false }

/-- A catalog of two references, `chrA` of length 100 and `chrB` of length
250. -/
def twoRefConfig : SamConfig :=
  { emptyConfig with
    refnames_ := ["chrA".toList, "chrB".toList], reflens_ := [100, 250],
    pg_id_ := "bowtie2".toList, pg_pn_ := "bowtie2".toList, pg_vn_ := "2.0".toList }

/-- An unpaired read without a primer base. -/
def plainRead : Read :=
  { patFw := "ACGT".toList, qual := "IIII".toList, primer := '?', trimc := '?', mate := 0 }

/-- A nucleotide-space alignment with score -6, one mismatch and a read gap
of two bases. -/
def plainRes : AlnRes :=
  { score := ⟨true, -6⟩, oscore := ⟨false, 0⟩, color := false, refNs := 0,
    ned := [⟨1, EditKind.mismatch⟩, ⟨3, EditKind.readGap⟩, ⟨3, EditKind.readGap⟩],
    printMD := fun _ => "1A2".toList }

/-- The flags of an unpaired, unfiltered alignment. -/
def plainFlags : AlnFlags :=
  { partOfPair := false, canMax := true, isMixedMode := false, filtered := false,
    printYT := "YT:Z:UU".toList, printYP := "YP:i:0".toList, printYM := "YM:i:0".toList,
    printYF := fun _ => ([], true) }

/-- A summary of an unpaired read without a second-best score. -/
def plainSumm : AlnSetSumm :=
  { paired := false, secbestMate := fun _ => ⟨false, 0⟩ }

/-- Every toggle off except `CS` and `CQ`. -/
def csCqConfig : SamConfig :=
  { emptyConfig with
    print_cs_ := true, print_cq_ := true }

/-- Every toggle off, with a read-group string. -/
def readGroupOnlyConfig : SamConfig :=
  { emptyConfig with
    rgs_ := "RG:Z:g1".toList }

/-- The toggles `AS`, `XM`, `NM` and `YT` on, the others off. -/
def fourFieldConfig : SamConfig :=
  { emptyConfig with
    print_as_ := true, print_xm_ := true, print_nm_ := true, print_yt_ := true }

/-- Every toggle on, with a read-group string. -/
def allOnConfig : SamConfig :=
  { emptyConfig with
    rgs_ := "RG:Z:g1".toList,
    print_as_ := true, print_xs_ := true, print_xn_ := true, print_cs_ := true,
    print_cq_ := true, print_xm_ := true, print_xo_ := true, print_xg_ := true,
    print_nm_ := true, print_md_ := true, print_yf_ := true, print_yi_ := true,
    print_ym_ := true, print_yp_ := true, print_yt_ := true, print_ys_ := true }

/-- A color-space alignment whose mate has the score -9. -/
def colorRes : AlnRes :=
  { plainRes with
    color := true, oscore := ⟨true, -9⟩ }

/-- The flags of a filtered alignment of a paired read in mixed mode; its
`printYF` writes its own tab when it is not the first field. -/
def filteredPairFlags : AlnFlags :=
  { plainFlags with
    partOfPair := true, isMixedMode := true, filtered := true,
    printYF := fun b => ((if b then [] else ['\t']) ++ "YF:Z:NS".toList, false) }

/-- A summary of a paired read without a second-best score. -/
def pairedSumm : AlnSetSumm :=
  { plainSumm with
    paired := true }

/-! ## The reduced tag set and the filter-reason rendering -/

/-- The rows that `printEmptyOptFlags` applies, in the declared order. -/
def emptyTags : List Tag := [Tag.YT, Tag.YP, Tag.YM, Tag.YF, Tag.RG]

/-- Modelled from the spec: `AlnFlags::printYF` is not part of `sam.cpp`.  It
manages its own leading separator (a tab when it is not the first field) and
its result reports whether it wrote, as the separator state that the callers
keep with `first = flags.printYF(o, first) && first`: false once it wrote,
true when it wrote nothing.  `text` is the filter-reason field, empty when
there is nothing to write. -/
def printYFSpec (text : List Char) (first : Bool) : List Char × Bool :=
  if text.isEmpty then ([], true)
  else ((if first then [] else ['\t']) ++ text, false)

/-- The rows before `YF`, in the declared order. -/
def tagsBeforeYF : List Tag :=
  [Tag.AS, Tag.CS, Tag.CQ, Tag.XS, Tag.XN, Tag.XM, Tag.XO, Tag.XG, Tag.NM, Tag.MD,
   Tag.YS, Tag.YT, Tag.YP, Tag.YM]

/-- The rows after `YF`, in the declared order. -/
def tagsAfterYF : List Tag := [Tag.YI, Tag.RG]

/-- The rows of `printEmptyOptFlags` before `YF`. -/
def emptyTagsBeforeYF : List Tag := [Tag.YT, Tag.YP, Tag.YM]

/-- The rows of `printEmptyOptFlags` after `YF`. -/
def emptyTagsAfterYF : List Tag := [Tag.RG]

/-- Whether a row whose condition holds writes a field: every row does,
except `YF` when its rendering `yfText` has nothing to write. -/
def rowWrites (yfText : List Char) (t : Tag) : Bool :=
  t != Tag.YF || !yfText.isEmpty

/-- The rows that write a field: the rows whose condition holds, `YF` among
them only when its rendering has a field to write. -/
def writtenTags (cfg : SamConfig) (res : AlnRes) (flags : AlnFlags) (summ : AlnSetSumm)
    (mapqInp : List Char) (yfText : List Char) : List Tag :=
  (activeTags cfg res flags summ mapqInp).filter (rowWrites yfText)

/-- The text of a field, without its separator, the `YF` field being
`yfText`. -/
def writtenText (cfg : SamConfig) (exEnds : Bool) (rd : Read) (res : AlnRes)
    (flags : AlnFlags) (summ : AlnSetSumm) (mapqInp : List Char) (cnt : GapCounts)
    (yfText : List Char) (t : Tag) : List Char :=
  if t = Tag.YF then yfText else fieldText cfg exEnds rd res flags summ mapqInp cnt t

/-- The toggles `AS`, `YF` and `YI` on, the others off, with a read-group
string. -/
def asYfYiConfig : SamConfig :=
  { emptyConfig with
    rgs_ := "RG:Z:g1".toList,
    print_as_ := true, print_yf_ := true, print_yi_ := true }

/-- Filtered flags whose `printYF` is the modelled one and writes `YF:Z:NS`. -/
def specFilteredFlags : AlnFlags :=
  { plainFlags with
    filtered := true,
    printYF := printYFSpec "YF:Z:NS".toList }

/-- Filtered flags whose `printYF` is the modelled one and has nothing to
write. -/
def specSilentFlags : AlnFlags :=
  { plainFlags with
    filtered := true,
    printYF := printYFSpec [] }

/-- The toggles `YF` and `YI` on, the others off. -/
def yfYiConfig : SamConfig :=
  { emptyConfig with
    print_yf_ := true, print_yi_ := true }

/-- The toggle `YF` on, the others off, with a read-group string. -/
def yfReadGroupConfig : SamConfig :=
  { emptyConfig with
    rgs_ := "RG:Z:g1".toList,
    print_yf_ := true }

/-- The toggles `YT`, `YP`, `YM` and `YF` on, the others off, with a
read-group string. -/
def emptyRowsConfig : SamConfig :=
  { emptyConfig with
    rgs_ := "RG:Z:g1".toList,
    print_yf_ := true, print_ym_ := true, print_yp_ := true, print_yt_ := true }

/-- The flags of an unfiltered alignment of a paired read in mixed mode. -/
def mixedPairFlags : AlnFlags :=
  { plainFlags with
    partOfPair := true, isMixedMode := true }

/-- The `XS` field for a second-best score: the decimal score when it is
valid, `0` when it is not. -/
def xsField (sc : AlnScore) : List Char :=
  "XS:i:".toList ++ (if sc.valid then itoa10Score sc.score else "0".toList)

/-- The `CS` field of a read: the primer base and the trimmed color before
the forward read sequence when the primer base is not `?`, the forward read
sequence alone when it is. -/
def csField (rd : Read) : List Char :=
  "CS:Z:".toList ++
    (if rd.primer = '?' then rd.patFw else rd.primer :: rd.trimc :: rd.patFw)

/-- The `CQ` field of a read: its quality string. -/
def cqField (rd : Read) : List Char := "CQ:Z:".toList ++ rd.qual

/-- The toggles `AS` and `XS` on, the others off. -/
def asXsConfig : SamConfig :=
  { emptyConfig with
    print_as_ := true, print_xs_ := true }

/-- The second read of a pair, with a primer base. -/
def mateTwoRead : Read :=
  { patFw := "0123".toList, qual := "IIII".toList, primer := 'T', trimc := '0', mate := 2 }

/-- A summary of a paired read whose second mate has the second-best score
-12 and whose first mate has none. -/
def secondSlotSumm : AlnSetSumm :=
  { paired := true, secbestMate := fun mate1 => if mate1 then ⟨false, 0⟩ else ⟨true, -12⟩ }

/-- A catalog whose names hold a tab, a space and a newline. -/
def spacedNamesConfig : SamConfig :=
  { emptyConfig with
    refnames_ := ["chr1\tplus".toList, "chr 2".toList, "\nchr3".toList],
    reflens_ := [10, 2000, 7] }

/-! ## Lemmas on the optional flags -/

theorem foldl_filter_cons_step {α β : Type} (f : β → α → β) (p : α → Bool) (s : β)
    (a : α) (l : List α) :
    List.foldl f s (List.filter p (a :: l)) =
      List.foldl f (if p a then f s a else s) (List.filter p l) := by
  by_cases h : p a = true <;> simp [List.filter_cons, h]


theorem WRITE_SEP_fst (s : OutFileBuf × Bool) :
    (WRITE_SEP s).1 = if s.2 then s.1 else s.1 ++ ['\t'] := by
  rcases s with ⟨a, b⟩
  cases b <;> rfl

theorem WRITE_SEP_snd (s : OutFileBuf × Bool) : (WRITE_SEP s).2 = false := rfl

theorem printAlignedOptFlags_eq_render (cfg : SamConfig) (o : OutFileBuf)
    (first exEnds : Bool) (rd : Read) (res : AlnRes) (flags : AlnFlags)
    (summ : AlnSetSumm) (mapqInp : List Char) :
    printAlignedOptFlags cfg o first exEnds rd res flags summ mapqInp =
      (gapScan res.ned).map (fun cnt =>
        (renderFields cfg exEnds rd res flags summ mapqInp cnt (o, first)
          (activeTags cfg res flags summ mapqInp)).1) := by
  rcases hs : gapScan res.ned with _ | cnt
  · unfold printAlignedOptFlags
    rw [hs]
    rfl
  · unfold printAlignedOptFlags
    rw [hs]
    dsimp -zeta only
    lift_lets
    intro s0 bufAS wAS oAS s1 wCS oCS oCS2 sCS wCQ oCQ s3 sc bufXS wXS oXS s4 bufXN wXN oXN s5 sX0 sX1 bufXM wXM oXM s6 bufXO wXO oXO s7 bufXG wXG oXG s8 bufNM wNM oNM s9 wMD oMD s10 bufYS wYS oYS s11 wYT s12 wYP s13 wYM s14 rYF s15 wYI oYI s16 wRG s17
    have hAS : s1 = if rowActive cfg res flags summ mapqInp Tag.AS = true
        then emitField cfg exEnds rd res flags summ mapqInp cnt s0 Tag.AS else s0 := by
      simp only [s1, bufAS, wAS, oAS, rowActive, emitField, fieldText, WRITE_SEP_fst, WRITE_SEP_snd,
        write, writeChars, writeString, List.append_assoc]
    have hXS : s4 = if rowActive cfg res flags summ mapqInp Tag.XS = true
        then emitField cfg exEnds rd res flags summ mapqInp cnt s3 Tag.XS else s3 := by
      simp only [s4, sc, bufXS, wXS, oXS, rowActive, emitField, fieldText, WRITE_SEP_fst, WRITE_SEP_snd,
        write, writeChars, writeString, List.append_assoc]
    have hXN : s5 = if rowActive cfg res flags summ mapqInp Tag.XN = true
        then emitField cfg exEnds rd res flags summ mapqInp cnt s4 Tag.XN else s4 := by
      simp only [s5, bufXN, wXN, oXN, rowActive, emitField, fieldText, WRITE_SEP_fst, WRITE_SEP_snd,
        write, writeChars, writeString, List.append_assoc]
    have hXM : s6 = if rowActive cfg res flags summ mapqInp Tag.XM = true
        then emitField cfg exEnds rd res flags summ mapqInp cnt sX1 Tag.XM else sX1 := by
      simp only [s6, bufXM, wXM, oXM, rowActive, emitField, fieldText, WRITE_SEP_fst, WRITE_SEP_snd,
        write, writeChars, writeString, List.append_assoc]
    have hXO : s7 = if rowActive cfg res flags summ mapqInp Tag.XO = true
        then emitField cfg exEnds rd res flags summ mapqInp cnt s6 Tag.XO else s6 := by
      simp only [s7, bufXO, wXO, oXO, rowActive, emitField, fieldText, WRITE_SEP_fst, WRITE_SEP_snd,
        write, writeChars, writeString, List.append_assoc]
    have hXG : s8 = if rowActive cfg res flags summ mapqInp Tag.XG = true
        then emitField cfg exEnds rd res flags summ mapqInp cnt s7 Tag.XG else s7 := by
      simp only [s8, bufXG, wXG, oXG, rowActive, emitField, fieldText, WRITE_SEP_fst, WRITE_SEP_snd,
        write, writeChars, writeString, List.append_assoc]
    have hNM : s9 = if rowActive cfg res flags summ mapqInp Tag.NM = true
        then emitField cfg exEnds rd res flags summ mapqInp cnt s8 Tag.NM else s8 := by
      simp only [s9, bufNM, wNM, oNM, rowActive, emitField, fieldText, WRITE_SEP_fst, WRITE_SEP_snd,
        write, writeChars, writeString, List.append_assoc]
    have hMD : s10 = if rowActive cfg res flags summ mapqInp Tag.MD = true
        then emitField cfg exEnds rd res flags summ mapqInp cnt s9 Tag.MD else s9 := by
      simp only [s10, wMD, oMD, rowActive, emitField, fieldText, WRITE_SEP_fst, WRITE_SEP_snd,
        write, writeChars, writeString, List.append_assoc]
    have hYS : s11 = if rowActive cfg res flags summ mapqInp Tag.YS = true
        then emitField cfg exEnds rd res flags summ mapqInp cnt s10 Tag.YS else s10 := by
      simp only [s11, bufYS, wYS, oYS, rowActive, emitField, fieldText, WRITE_SEP_fst, WRITE_SEP_snd,
        write, writeChars, writeString, List.append_assoc]
    have hYT : s12 = if rowActive cfg res flags summ mapqInp Tag.YT = true
        then emitField cfg exEnds rd res flags summ mapqInp cnt s11 Tag.YT else s11 := by
      simp only [s12, wYT, rowActive, emitField, fieldText, WRITE_SEP_fst, WRITE_SEP_snd,
        write, writeChars, writeString, List.append_assoc]
    have hYP : s13 = if rowActive cfg res flags summ mapqInp Tag.YP = true
        then emitField cfg exEnds rd res flags summ mapqInp cnt s12 Tag.YP else s12 := by
      simp only [s13, wYP, rowActive, emitField, fieldText, WRITE_SEP_fst, WRITE_SEP_snd,
        write, writeChars, writeString, List.append_assoc]
    have hYM : s14 = if rowActive cfg res flags summ mapqInp Tag.YM = true
        then emitField cfg exEnds rd res flags summ mapqInp cnt s13 Tag.YM else s13 := by
      simp only [s14, wYM, rowActive, emitField, fieldText, WRITE_SEP_fst, WRITE_SEP_snd,
        write, writeChars, writeString, List.append_assoc]
    have hYF : s15 = if rowActive cfg res flags summ mapqInp Tag.YF = true
        then emitField cfg exEnds rd res flags summ mapqInp cnt s14 Tag.YF else s14 := by
      simp only [s15, rYF, rowActive, emitField, fieldText, WRITE_SEP_fst, WRITE_SEP_snd,
        write, writeChars, writeString, List.append_assoc]
    have hYI : s16 = if rowActive cfg res flags summ mapqInp Tag.YI = true
        then emitField cfg exEnds rd res flags summ mapqInp cnt s15 Tag.YI else s15 := by
      simp only [s16, wYI, oYI, rowActive, emitField, fieldText, WRITE_SEP_fst, WRITE_SEP_snd,
        write, writeChars, writeString, List.append_assoc]
      cases cfg.print_yi_ <;> cases mapqInp.isEmpty <;> rfl
    have hRG : s17 = if rowActive cfg res flags summ mapqInp Tag.RG = true
        then emitField cfg exEnds rd res flags summ mapqInp cnt s16 Tag.RG else s16 := by
      simp only [s17, wRG, rowActive, emitField, fieldText, WRITE_SEP_fst, WRITE_SEP_snd,
        write, writeChars, writeString, List.append_assoc]
    have hC : s3 = if rowActive cfg res flags summ mapqInp Tag.CQ = true
        then emitField cfg exEnds rd res flags summ mapqInp cnt
          (if rowActive cfg res flags summ mapqInp Tag.CS = true
            then emitField cfg exEnds rd res flags summ mapqInp cnt s1 Tag.CS else s1) Tag.CQ
        else (if rowActive cfg res flags summ mapqInp Tag.CS = true
            then emitField cfg exEnds rd res flags summ mapqInp cnt s1 Tag.CS else s1) := by
      simp only [s3, oCQ, wCQ, sCS, oCS2, oCS, wCS, rowActive, emitField, fieldText,
        WRITE_SEP_fst, WRITE_SEP_snd, write, writeChars, writeString, List.append_assoc]
      cases res.color <;> cases cfg.print_cs_ <;> cases cfg.print_cq_ <;>
        cases (rd.primer != '?') <;> simp
    have hX : sX1 = s5 := by simp only [sX1, sX0, ite_self]
    have e0 : s0 = (o, first) := rfl
    simp only [Option.map_some', renderFields, activeTags, allTags]
    rw [← e0, foldl_filter_cons_step, ← hAS, foldl_filter_cons_step, foldl_filter_cons_step,
      ← hC, foldl_filter_cons_step, ← hXS, foldl_filter_cons_step, ← hXN, ← hX,
      foldl_filter_cons_step, ← hXM, foldl_filter_cons_step, ← hXO, foldl_filter_cons_step,
      ← hXG, foldl_filter_cons_step, ← hNM, foldl_filter_cons_step, ← hMD,
      foldl_filter_cons_step, ← hYS, foldl_filter_cons_step, ← hYT, foldl_filter_cons_step,
      ← hYP, foldl_filter_cons_step, ← hYM, foldl_filter_cons_step, ← hYF,
      foldl_filter_cons_step, ← hYI, foldl_filter_cons_step, ← hRG]
    rfl

theorem printEmptyOptFlags_eq_render (cfg : SamConfig) (o : OutFileBuf) (first : Bool)
    (flags : AlnFlags) (summ : AlnSetSumm) (exEnds : Bool) (rd : Read) (res : AlnRes)
    (mapqInp : List Char) (cnt : GapCounts) :
    printEmptyOptFlags cfg o first flags summ =
      (renderFields cfg exEnds rd res flags summ mapqInp cnt (o, first)
        (emptyTags.filter (rowActive cfg res flags summ mapqInp))).1 := by
  unfold printEmptyOptFlags
  lift_lets
  intro s0 wYT s12 wYP s13 wYM s14 rYF s15 wRG s17
  have hYT : s12 = if rowActive cfg res flags summ mapqInp Tag.YT = true
      then emitField cfg exEnds rd res flags summ mapqInp cnt s0 Tag.YT else s0 := by
    simp only [s12, wYT, rowActive, emitField, fieldText, WRITE_SEP_fst, WRITE_SEP_snd,
      write, writeChars, writeString, List.append_assoc]
  have hYP : s13 = if rowActive cfg res flags summ mapqInp Tag.YP = true
      then emitField cfg exEnds rd res flags summ mapqInp cnt s12 Tag.YP else s12 := by
    simp only [s13, wYP, rowActive, emitField, fieldText, WRITE_SEP_fst, WRITE_SEP_snd,
      write, writeChars, writeString, List.append_assoc]
  have hYM : s14 = if rowActive cfg res flags summ mapqInp Tag.YM = true
      then emitField cfg exEnds rd res flags summ mapqInp cnt s13 Tag.YM else s13 := by
    simp only [s14, wYM, rowActive, emitField, fieldText, WRITE_SEP_fst, WRITE_SEP_snd,
      write, writeChars, writeString, List.append_assoc]
  have hYF : s15 = if rowActive cfg res flags summ mapqInp Tag.YF = true
      then emitField cfg exEnds rd res flags summ mapqInp cnt s14 Tag.YF else s14 := by
    simp only [s15, rYF, rowActive, emitField, fieldText, WRITE_SEP_fst, WRITE_SEP_snd,
      write, writeChars, writeString, List.append_assoc]
  have hRG : s17 = if rowActive cfg res flags summ mapqInp Tag.RG = true
      then emitField cfg exEnds rd res flags summ mapqInp cnt s15 Tag.RG else s15 := by
    simp only [s17, wRG, rowActive, emitField, fieldText, WRITE_SEP_fst, WRITE_SEP_snd,
      write, writeChars, writeString, List.append_assoc]
  have e0 : s0 = (o, first) := rfl
  simp only [renderFields, emptyTags]
  rw [← e0, foldl_filter_cons_step, ← hYT, foldl_filter_cons_step, ← hYP,
    foldl_filter_cons_step, ← hYM, foldl_filter_cons_step, ← hYF, foldl_filter_cons_step,
    ← hRG]
  rfl

theorem activeTags_eq_emptyTags (cfg : SamConfig) (res : AlnRes) (flags : AlnFlags)
    (summ : AlnSetSumm) (mapqInp : List Char)
    (has : cfg.print_as_ = false) (hcs : cfg.print_cs_ = false) (hcq : cfg.print_cq_ = false)
    (hxs : cfg.print_xs_ = false) (hxn : cfg.print_xn_ = false) (hxm : cfg.print_xm_ = false)
    (hxo : cfg.print_xo_ = false) (hxg : cfg.print_xg_ = false) (hnm : cfg.print_nm_ = false)
    (hmd : cfg.print_md_ = false) (hys : cfg.print_ys_ = false) (hyi : cfg.print_yi_ = false) :
    activeTags cfg res flags summ mapqInp =
      emptyTags.filter (rowActive cfg res flags summ mapqInp) := by
  have h : ∀ t : Tag, t ∉ emptyTags → rowActive cfg res flags summ mapqInp t = false := by
    intro t ht
    cases t <;> first
      | exact absurd (by decide) ht
      | simp [rowActive, has, hcs, hcq, hxs, hxn, hxm, hxo, hxg, hnm, hmd, hys, hyi]
  simp only [activeTags, allTags, emptyTags, List.filter_cons, List.filter_nil,
    h Tag.AS (by decide), h Tag.CS (by decide), h Tag.CQ (by decide), h Tag.XS (by decide),
    h Tag.XN (by decide), h Tag.XM (by decide), h Tag.XO (by decide), h Tag.XG (by decide),
    h Tag.NM (by decide), h Tag.MD (by decide), h Tag.YS (by decide), h Tag.YI (by decide),
    Bool.false_eq_true, if_false]

/-! ## Lemmas on the gap-run scan -/

theorem sizeMinus1_eq (n : Nat) (h1 : 1 ≤ n) (h2 : n ≤ 2 ^ 64) : sizeMinus1 n = n - 1 := by
  unfold sizeMinus1
  have e : n + 2 ^ 64 - 1 = (n - 1) + 2 ^ 64 := by omega
  rw [e, Nat.add_mod_right]
  exact Nat.mod_eq_of_lt (by omega)

theorem machineStep_read_indep (p : Nat) (c : GapCounts) (e : Edit)
    (h : ¬ ((e.pos == p && e.isReadGap) = true)) :
    machineStep (RunState.inReadGapRun p, c) e = machineStep (RunState.normal, c) e := by
  unfold machineStep
  rcases e with ⟨q, k⟩
  cases k <;> simp_all [Edit.isReadGap]

theorem machineStep_ref_indep (p : Nat) (c : GapCounts) (e : Edit)
    (h : ¬ ((e.pos == p + 1 && e.isRefGap) = true)) :
    machineStep (RunState.inRefGapRun p, c) e = machineStep (RunState.normal, c) e := by
  unfold machineStep
  rcases e with ⟨q, k⟩
  cases k <;> simp_all [Edit.isRefGap]

theorem readGapLoop_spec (ned : List Edit) (hn : ned.length ≤ 2 ^ 64) :
    ∀ (fuel i gx : Nat) (cur : Edit), ned[i]? = some cur → ned.length - i ≤ fuel →
      ∃ j, readGapLoop ned fuel i gx = some (j, gx + (j - i)) ∧ i ≤ j ∧ j < ned.length ∧
        ∀ c : GapCounts,
          (List.foldl machineStep (RunState.inReadGapRun cur.pos, c) (ned.drop (i + 1))).2 =
          (List.foldl machineStep
            (RunState.normal, { c with num_gx := c.num_gx + (j - i) }) (ned.drop (j + 1))).2 := by
  intro fuel
  induction fuel with
  | zero =>
    intro i gx cur hcur hf
    have hi : i < ned.length := (List.getElem?_eq_some_iff.mp hcur).1
    omega
  | succ fuel ih =>
    intro i gx cur hcur hf
    have hi : i < ned.length := (List.getElem?_eq_some_iff.mp hcur).1
    rw [readGapLoop]
    rw [sizeMinus1_eq ned.length (by omega) hn]
    by_cases hlt : i < ned.length - 1
    · have hi1 : i + 1 < ned.length := by omega
      rw [if_pos hlt, hcur, List.getElem?_eq_getElem hi1]
      simp only []
      by_cases hc : (ned[i + 1].pos == cur.pos && ned[i + 1].isReadGap) = true
      · rw [if_pos hc]
        obtain ⟨j, hj, hij, hjn, hrun⟩ :=
          ih (i + 1) (gx + 1) ned[i + 1] (List.getElem?_eq_getElem hi1) (by omega)
        refine ⟨j, ?_, by omega, hjn, ?_⟩
        · rw [hj]
          congr 2
          omega
        · intro c
          rw [List.drop_eq_getElem_cons hi1, List.foldl_cons]
          have hk : ned[i + 1].kind = EditKind.readGap := by
            simp [Edit.isReadGap] at hc
            exact hc.2
          have hp : ned[i + 1].pos = cur.pos := by
            simp at hc
            exact hc.1
          have hstep : machineStep (RunState.inReadGapRun cur.pos, c) ned[i + 1] =
              (RunState.inReadGapRun ned[i + 1].pos, { c with num_gx := c.num_gx + 1 }) := by
            unfold machineStep
            simp [hk, hp]
          rw [hstep, hrun]
          have e : c.num_gx + 1 + (j - (i + 1)) = c.num_gx + (j - i) := by omega
          simp only [e]
      · rw [if_neg hc]
        refine ⟨i, by simp, le_refl _, hi, ?_⟩
        intro c
        rw [List.drop_eq_getElem_cons hi1, List.foldl_cons, List.foldl_cons,
          machineStep_read_indep cur.pos c _ hc]
        simp
    · rw [if_neg hlt]
      refine ⟨i, by simp, le_refl _, hi, ?_⟩
      intro c
      have : ned.drop (i + 1) = [] := List.drop_eq_nil_of_le (by omega)
      rw [this]
      simp

theorem refGapLoop_spec (ned : List Edit) (hn : ned.length ≤ 2 ^ 64) :
    ∀ (fuel i gx : Nat) (cur : Edit), ned[i]? = some cur → ned.length - i ≤ fuel →
      ∃ j, refGapLoop ned fuel i gx = some (j, gx + (j - i)) ∧ i ≤ j ∧ j < ned.length ∧
        ∀ c : GapCounts,
          (List.foldl machineStep (RunState.inRefGapRun cur.pos, c) (ned.drop (i + 1))).2 =
          (List.foldl machineStep
            (RunState.normal, { c with num_gx := c.num_gx + (j - i) }) (ned.drop (j + 1))).2 := by
  intro fuel
  induction fuel with
  | zero =>
    intro i gx cur hcur hf
    have hi : i < ned.length := (List.getElem?_eq_some_iff.mp hcur).1
    omega
  | succ fuel ih =>
    intro i gx cur hcur hf
    have hi : i < ned.length := (List.getElem?_eq_some_iff.mp hcur).1
    rw [refGapLoop]
    rw [sizeMinus1_eq ned.length (by omega) hn]
    by_cases hlt : i < ned.length - 1
    · have hi1 : i + 1 < ned.length := by omega
      rw [if_pos hlt, hcur, List.getElem?_eq_getElem hi1]
      simp only []
      by_cases hc : (ned[i + 1].pos == cur.pos + 1 && ned[i + 1].isRefGap) = true
      · rw [if_pos hc]
        obtain ⟨j, hj, hij, hjn, hrun⟩ :=
          ih (i + 1) (gx + 1) ned[i + 1] (List.getElem?_eq_getElem hi1) (by omega)
        refine ⟨j, ?_, by omega, hjn, ?_⟩
        · rw [hj]
          congr 2
          omega
        · intro c
          rw [List.drop_eq_getElem_cons hi1, List.foldl_cons]
          have hk : ned[i + 1].kind = EditKind.refGap := by
            simp [Edit.isRefGap] at hc
            exact hc.2
          have hp : ned[i + 1].pos = cur.pos + 1 := by
            simp at hc
            exact hc.1
          have hstep : machineStep (RunState.inRefGapRun cur.pos, c) ned[i + 1] =
              (RunState.inRefGapRun ned[i + 1].pos, { c with num_gx := c.num_gx + 1 }) := by
            unfold machineStep
            simp [hk, hp]
          rw [hstep, hrun]
          have e : c.num_gx + 1 + (j - (i + 1)) = c.num_gx + (j - i) := by omega
          simp only [e]
      · rw [if_neg hc]
        refine ⟨i, by simp, le_refl _, hi, ?_⟩
        intro c
        rw [List.drop_eq_getElem_cons hi1, List.foldl_cons, List.foldl_cons,
          machineStep_ref_indep cur.pos c _ hc]
        simp
    · rw [if_neg hlt]
      refine ⟨i, by simp, le_refl _, hi, ?_⟩
      intro c
      have : ned.drop (i + 1) = [] := List.drop_eq_nil_of_le (by omega)
      rw [this]
      simp

theorem scanLoop_succ (ned : List Edit) (fuel i : Nat) (c : GapCounts) :
    scanLoop ned (fuel + 1) i c =
      if i < ned.length then
        match ned[i]? with
        | none => none
        | some e =>
          if e.isMismatch then
            scanLoop ned fuel (i + 1) { c with num_mm := c.num_mm + 1 }
          else if e.isReadGap then
            match readGapLoop ned ned.length i (c.num_gx + 1) with
            | none => none
            | some r =>
              scanLoop ned fuel (r.1 + 1) { c with num_go := c.num_go + 1, num_gx := r.2 }
          else if e.isRefGap then
            match refGapLoop ned ned.length i (c.num_gx + 1) with
            | none => none
            | some r =>
              scanLoop ned fuel (r.1 + 1) { c with num_go := c.num_go + 1, num_gx := r.2 }
          else scanLoop ned fuel (i + 1) c
      else some c := rfl


theorem scanLoop_spec (ned : List Edit) (hn : ned.length ≤ 2 ^ 64) :
    ∀ (fuel i : Nat) (c : GapCounts), i ≤ ned.length → ned.length - i < fuel →
      scanLoop ned fuel i c =
        some (List.foldl machineStep (RunState.normal, c) (ned.drop i)).2 := by
  intro fuel
  induction fuel with
  | zero => intro i c _ hf; omega
  | succ fuel ih =>
    intro i c hi hf
    rw [scanLoop_succ]
    by_cases hlt : i < ned.length
    · rw [if_pos hlt, List.getElem?_eq_getElem hlt]
      generalize hR : readGapLoop ned ned.length i (c.num_gx + 1) = R
      generalize hF : refGapLoop ned ned.length i (c.num_gx + 1) = F
      simp only []
      rw [List.drop_eq_getElem_cons hlt, List.foldl_cons]
      rcases hk : ned[i].kind with _ | _ | _ | _
      · have h1 : ned[i].isMismatch = true := by simp [Edit.isMismatch, hk]
        rw [if_pos h1, ih (i + 1) _ (by omega) (by omega)]
        simp [machineStep, hk]
      · have h1 : ¬ (ned[i].isMismatch = true) := by simp [Edit.isMismatch, hk]
        have h2 : ned[i].isReadGap = true := by simp [Edit.isReadGap, hk]
        rw [if_neg h1, if_pos h2]
        obtain ⟨j, hj, hij, hjn, hrun⟩ :=
          readGapLoop_spec ned hn ned.length i (c.num_gx + 1) ned[i]
            (List.getElem?_eq_getElem hlt) (by omega)
        have hR2 : R = some (j, c.num_gx + 1 + (j - i)) := hR.symm.trans hj
        subst hR2
        simp only []
        rw [ih (j + 1) _ (by omega) (by omega)]
        have hstep : machineStep (RunState.normal, c) ned[i] =
            (RunState.inReadGapRun ned[i].pos,
              { c with num_go := c.num_go + 1, num_gx := c.num_gx + 1 }) := by
          simp [machineStep, hk]
        rw [hstep, hrun]
      · have h1 : ¬ (ned[i].isMismatch = true) := by simp [Edit.isMismatch, hk]
        have h2 : ¬ (ned[i].isReadGap = true) := by simp [Edit.isReadGap, hk]
        have h3 : ned[i].isRefGap = true := by simp [Edit.isRefGap, hk]
        rw [if_neg h1, if_neg h2, if_pos h3]
        obtain ⟨j, hj, hij, hjn, hrun⟩ :=
          refGapLoop_spec ned hn ned.length i (c.num_gx + 1) ned[i]
            (List.getElem?_eq_getElem hlt) (by omega)
        have hF2 : F = some (j, c.num_gx + 1 + (j - i)) := hF.symm.trans hj
        subst hF2
        simp only []
        rw [ih (j + 1) _ (by omega) (by omega)]
        have hstep : machineStep (RunState.normal, c) ned[i] =
            (RunState.inRefGapRun ned[i].pos,
              { c with num_go := c.num_go + 1, num_gx := c.num_gx + 1 }) := by
          simp [machineStep, hk]
        rw [hstep, hrun]
      · have h1 : ¬ (ned[i].isMismatch = true) := by simp [Edit.isMismatch, hk]
        have h2 : ¬ (ned[i].isReadGap = true) := by simp [Edit.isReadGap, hk]
        have h3 : ¬ (ned[i].isRefGap = true) := by simp [Edit.isRefGap, hk]
        rw [if_neg h1, if_neg h2, if_neg h3, ih (i + 1) _ (by omega) (by omega)]
        simp [machineStep, hk]
    · rw [if_neg hlt, List.drop_eq_nil_of_le (by omega)]
      simp

theorem gapScan_eq_gapMachine (ned : List Edit) (hn : ned.length < 2 ^ 64) :
    gapScan ned = some (gapMachine ned) := by
  unfold gapScan gapMachine
  rw [scanLoop_spec ned (Nat.le_of_lt hn) (ned.length + 1) 0 _ (Nat.zero_le _) (by omega)]
  simp

theorem machineStep_stateAfter (prev : Option Edit) (c : GapCounts) (e : Edit) :
    (machineStep (stateAfter prev, c) e).1 = stateAfter (some e) ∧
    (machineStep (stateAfter prev, c) e).2.num_go =
      c.num_go + (if startsRun prev e then 1 else 0) := by
  rcases e with ⟨q, k⟩
  rcases prev with _ | ⟨p, kp⟩
  · cases k <;> simp [machineStep, stateAfter, startsRun, Edit.isReadGap, Edit.isRefGap]
  · cases k <;> cases kp <;>
      simp [machineStep, stateAfter, startsRun, continuesRun, Edit.isReadGap, Edit.isRefGap] <;>
      split <;> simp_all

theorem machine_num_go (es : List Edit) :
    ∀ (prev : Option Edit) (c : GapCounts),
      (List.foldl machineStep (stateAfter prev, c) es).2.num_go =
        c.num_go + countRunStarts prev es := by
  induction es with
  | nil => intro prev c; simp [countRunStarts]
  | cons e rest ih =>
    intro prev c
    obtain ⟨h1, h2⟩ := machineStep_stateAfter prev c e
    rw [List.foldl_cons]
    have hpair : machineStep (stateAfter prev, c) e =
        (stateAfter (some e), (machineStep (stateAfter prev, c) e).2) := by
      rw [← h1]
    rw [hpair, ih, h2, countRunStarts]
    omega

theorem machineStep_bounds (s : RunState) (c : GapCounts) (e : Edit) :
    (machineStep (s, c) e).2.num_go + c.num_gx ≤ (machineStep (s, c) e).2.num_gx + c.num_go ∧
    (machineStep (s, c) e).2.num_gx + (machineStep (s, c) e).2.num_mm ≤
      c.num_gx + c.num_mm + 1 ∧
    (e.kind ≠ EditKind.other →
      (machineStep (s, c) e).2.num_gx + (machineStep (s, c) e).2.num_mm =
        c.num_gx + c.num_mm + 1) := by
  rcases e with ⟨q, k⟩
  cases k <;> cases s <;> simp only [machineStep] <;> (try split) <;>
    simp <;> omega

theorem machine_bounds (es : List Edit) :
    ∀ (s : RunState) (c : GapCounts),
      (List.foldl machineStep (s, c) es).2.num_go + c.num_gx ≤
        (List.foldl machineStep (s, c) es).2.num_gx + c.num_go ∧
      (List.foldl machineStep (s, c) es).2.num_gx + (List.foldl machineStep (s, c) es).2.num_mm ≤
        c.num_gx + c.num_mm + es.length ∧
      ((∀ e ∈ es, e.kind ≠ EditKind.other) →
        (List.foldl machineStep (s, c) es).2.num_gx +
          (List.foldl machineStep (s, c) es).2.num_mm = c.num_gx + c.num_mm + es.length) := by
  induction es with
  | nil =>
    intro s c
    simp
    omega
  | cons e rest ih =>
    intro s c
    rw [List.foldl_cons]
    obtain ⟨g1, g2, g3⟩ := machineStep_bounds s c e
    generalize machineStep (s, c) e = r at g1 g2 g3 ⊢
    rcases r with ⟨s1, c1⟩
    obtain ⟨h1, h2, h3⟩ := ih s1 c1
    simp only at g1 g2 g3
    refine ⟨by omega, by simp only [List.length_cons]; omega, ?_⟩
    intro hall
    have ha := g3 (hall e (List.mem_cons_self _ _))
    have hb := h3 (fun x hx => hall x (List.mem_cons_of_mem _ hx))
    simp only [List.length_cons]
    omega

theorem machine_replicate_readGap (p : Nat) (k : Nat) :
    ∀ c : GapCounts,
      List.foldl machineStep (RunState.inReadGapRun p, c)
          (List.replicate k ⟨p, EditKind.readGap⟩) =
        (RunState.inReadGapRun p, { c with num_gx := c.num_gx + k }) := by
  induction k with
  | zero => intro c; simp
  | succ k ih =>
    intro c
    rw [List.replicate_succ, List.foldl_cons]
    have hstep : machineStep (RunState.inReadGapRun p, c) ⟨p, EditKind.readGap⟩ =
        (RunState.inReadGapRun p, { c with num_gx := c.num_gx + 1 }) := by
      simp [machineStep]
    rw [hstep, ih]
    have e : c.num_gx + 1 + k = c.num_gx + (k + 1) := by omega
    simp only [e]

/-- The `k` reference gaps at the positions `p`, `p+1`, ..., `p+k-1`. -/
theorem machine_refGap_run (k : Nat) :
    ∀ (p : Nat) (c : GapCounts),
      (List.foldl machineStep (RunState.inRefGapRun p, c)
          ((List.range k).map (fun j => (⟨p + 1 + j, EditKind.refGap⟩ : Edit)))).2 =
        { c with num_gx := c.num_gx + k } := by
  induction k with
  | zero => intro p c; simp
  | succ k ih =>
    intro p c
    rw [List.range_succ_eq_map, List.map_cons, List.foldl_cons, List.map_map]
    have hstep : machineStep (RunState.inRefGapRun p, c) ⟨p + 1 + 0, EditKind.refGap⟩ =
        (RunState.inRefGapRun (p + 1), { c with num_gx := c.num_gx + 1 }) := by
      simp [machineStep]
    have hmap : ((fun j => (⟨p + 1 + j, EditKind.refGap⟩ : Edit)) ∘ Nat.succ) =
        (fun j => (⟨p + 1 + 1 + j, EditKind.refGap⟩ : Edit)) := by
      funext j
      simp only [Function.comp, Nat.succ_eq_add_one]
      congr 1
      omega
    rw [hstep, hmap, ih (p + 1)]
    have e : c.num_gx + 1 + k = c.num_gx + (k + 1) := by omega
    simp only [e]

/-! ## The gap-run scan: verified properties -/

/-- Claim C3.  For an edit list that fits a `size_t` index, the gap-run scan
returns the triple (mismatches, gap opens, gap extensions) of the one-pass
machine with the states Normal / InReadGapRun / InRefGapRun, and its gap-open
count is the number of gap entries whose immediate predecessor is not a gap
of the same kind at the adjacent position. -/
theorem gapScan_refines_gapMachine (ned : List Edit) (hn : ned.length < 2 ^ 64) :
    gapScan ned = some (gapMachine ned) ∧
    (gapMachine ned).num_go = countRunStarts none ned := by
  refine ⟨gapScan_eq_gapMachine ned hn, ?_⟩
  have h := machine_num_go ned none ⟨0, 0, 0⟩
  simpa [gapMachine, stateAfter] using h

/-- Reference gaps at the positions 5 and 9 are two runs: two gap opens and
two gap extensions. -/
theorem gapScan_refines_gapMachine_witness :
    ([⟨5, EditKind.refGap⟩, ⟨9, EditKind.refGap⟩] : List Edit).length < 2 ^ 64 ∧
    (gapScan [⟨5, EditKind.refGap⟩, ⟨9, EditKind.refGap⟩] =
        some (gapMachine [⟨5, EditKind.refGap⟩, ⟨9, EditKind.refGap⟩]) ∧
      (gapMachine [⟨5, EditKind.refGap⟩, ⟨9, EditKind.refGap⟩]).num_go =
        countRunStarts none [⟨5, EditKind.refGap⟩, ⟨9, EditKind.refGap⟩]) ∧
    gapScan [⟨5, EditKind.refGap⟩, ⟨9, EditKind.refGap⟩] = some ⟨0, 2, 2⟩ :=
  ⟨by decide, gapScan_refines_gapMachine _ (by decide), by decide⟩

/-- Claim C4.  For an edit list that fits a `size_t` index, the scan returns
counts with gapOpens ≤ gapExtensions and gapExtensions + mismatches ≤ the
number of edit entries. -/
theorem gapScan_count_bounds (ned : List Edit) (hn : ned.length < 2 ^ 64) :
    ∃ cnt, gapScan ned = some cnt ∧ cnt.num_go ≤ cnt.num_gx ∧
      cnt.num_gx + cnt.num_mm ≤ ned.length := by
  refine ⟨gapMachine ned, gapScan_eq_gapMachine ned hn, ?_⟩
  obtain ⟨h1, h2, _⟩ := machine_bounds ned RunState.normal ⟨0, 0, 0⟩
  dsimp only at h1 h2
  simp only [gapMachine]
  constructor <;> omega

theorem gapScan_count_bounds_witness :
    ([⟨2, EditKind.mismatch⟩, ⟨4, EditKind.readGap⟩, ⟨4, EditKind.readGap⟩,
        ⟨7, EditKind.other⟩] : List Edit).length < 2 ^ 64 ∧
    ∃ cnt, gapScan [⟨2, EditKind.mismatch⟩, ⟨4, EditKind.readGap⟩, ⟨4, EditKind.readGap⟩,
        ⟨7, EditKind.other⟩] = some cnt ∧ cnt.num_go ≤ cnt.num_gx ∧
      cnt.num_gx + cnt.num_mm ≤
        ([⟨2, EditKind.mismatch⟩, ⟨4, EditKind.readGap⟩, ⟨4, EditKind.readGap⟩,
          ⟨7, EditKind.other⟩] : List Edit).length :=
  ⟨by decide, gapScan_count_bounds _ (by decide)⟩

/-- Claim C5.  For an edit list whose entries are each a mismatch, a read gap
or a reference gap, the number of edit entries (the NM value) is the
mismatch count (the XM value) plus the gap-extension count (the XG value):
the scan counts every entry exactly once. -/
theorem gapScan_counts_every_entry (ned : List Edit) (hn : ned.length < 2 ^ 64)
    (hk : ∀ e ∈ ned, e.isMismatch = true ∨ e.isReadGap = true ∨ e.isRefGap = true) :
    ∃ cnt, gapScan ned = some cnt ∧ ned.length = cnt.num_mm + cnt.num_gx := by
  refine ⟨gapMachine ned, gapScan_eq_gapMachine ned hn, ?_⟩
  obtain ⟨_, _, h3⟩ := machine_bounds ned RunState.normal ⟨0, 0, 0⟩
  have hk2 : ∀ e ∈ ned, e.kind ≠ EditKind.other := by
    intro e he hother
    rcases hk e he with h | h | h <;>
      simp [Edit.isMismatch, Edit.isReadGap, Edit.isRefGap, hother] at h
  have h := h3 hk2
  dsimp only at h
  simp only [gapMachine]
  omega

theorem gapScan_counts_every_entry_witness :
    ([⟨2, EditKind.mismatch⟩, ⟨4, EditKind.readGap⟩, ⟨4, EditKind.readGap⟩,
        ⟨9, EditKind.refGap⟩] : List Edit).length < 2 ^ 64 ∧
    (∀ e ∈ ([⟨2, EditKind.mismatch⟩, ⟨4, EditKind.readGap⟩, ⟨4, EditKind.readGap⟩,
        ⟨9, EditKind.refGap⟩] : List Edit),
      e.isMismatch = true ∨ e.isReadGap = true ∨ e.isRefGap = true) ∧
    ∃ cnt, gapScan [⟨2, EditKind.mismatch⟩, ⟨4, EditKind.readGap⟩, ⟨4, EditKind.readGap⟩,
        ⟨9, EditKind.refGap⟩] = some cnt ∧
      ([⟨2, EditKind.mismatch⟩, ⟨4, EditKind.readGap⟩, ⟨4, EditKind.readGap⟩,
        ⟨9, EditKind.refGap⟩] : List Edit).length = cnt.num_mm + cnt.num_gx :=
  ⟨by decide, by decide, gapScan_counts_every_entry _ (by decide) (by decide)⟩

/-- Claim C6.  One mismatch followed by `k ≥ 1` read gaps that all have the
position `p` gives mismatches = 1, gapOpens = 1, gapExtensions = `k`. -/
theorem gapScan_mismatch_then_readGaps (k p q : Nat) (hk : 1 ≤ k) (hsz : k + 1 < 2 ^ 64) :
    gapScan (⟨q, EditKind.mismatch⟩ :: List.replicate k ⟨p, EditKind.readGap⟩) =
      some ⟨1, 1, k⟩ := by
  rw [gapScan_eq_gapMachine _ (by simpa using hsz)]
  obtain ⟨m, rfl⟩ : ∃ m, k = m + 1 := ⟨k - 1, by omega⟩
  simp only [gapMachine, List.replicate_succ, List.foldl_cons]
  have h1 : machineStep (RunState.normal, ⟨0, 0, 0⟩) ⟨q, EditKind.mismatch⟩ =
      (RunState.normal, ⟨1, 0, 0⟩) := by simp [machineStep]
  have h2 : machineStep (RunState.normal, ⟨1, 0, 0⟩) ⟨p, EditKind.readGap⟩ =
      (RunState.inReadGapRun p, ⟨1, 1, 1⟩) := by simp [machineStep]
  rw [h1, h2, machine_replicate_readGap]
  simp only [Option.some.injEq, GapCounts.mk.injEq, true_and]
  omega

/-- The case of the specification: one mismatch, then three read gaps at one
position. -/
theorem gapScan_mismatch_then_readGaps_witness :
    (1 ≤ 3 ∧ 3 + 1 < 2 ^ 64) ∧
    gapScan (⟨2, EditKind.mismatch⟩ :: List.replicate 3 ⟨4, EditKind.readGap⟩) =
      some ⟨1, 1, 3⟩ :=
  ⟨by decide, gapScan_mismatch_then_readGaps 3 4 2 (by decide) (by decide)⟩

/-- Claim C7.  `k ≥ 1` reference gaps at the positions `p`, `p+1`, ...,
`p+k-1` give gapOpens = 1 and gapExtensions = `k`: each entry is tested
against the entry absorbed just before it. -/
theorem gapScan_consecutive_refGaps (k p : Nat) (hk : 1 ≤ k) (hsz : k < 2 ^ 64) :
    gapScan ((List.range k).map (fun j => (⟨p + j, EditKind.refGap⟩ : Edit))) =
      some ⟨0, 1, k⟩ := by
  rw [gapScan_eq_gapMachine _ (by simpa using hsz)]
  obtain ⟨m, rfl⟩ : ∃ m, k = m + 1 := ⟨k - 1, by omega⟩
  simp only [gapMachine, List.range_succ_eq_map, List.map_cons, List.foldl_cons, List.map_map]
  have h1 : machineStep (RunState.normal, ⟨0, 0, 0⟩) ⟨p + 0, EditKind.refGap⟩ =
      (RunState.inRefGapRun p, ⟨0, 1, 1⟩) := by simp [machineStep]
  have hmap : ((fun j => (⟨p + j, EditKind.refGap⟩ : Edit)) ∘ Nat.succ) =
      (fun j => (⟨p + 1 + j, EditKind.refGap⟩ : Edit)) := by
    funext j
    simp only [Function.comp, Nat.succ_eq_add_one]
    congr 1
    omega
  rw [h1, hmap, machine_refGap_run]
  simp only [Option.some.injEq, GapCounts.mk.injEq, true_and]
  omega

/-- The case of the specification: reference gaps at the positions 5, 6, 7. -/
theorem gapScan_consecutive_refGaps_witness :
    (1 ≤ 3 ∧ 3 < 2 ^ 64) ∧
    gapScan ((List.range 3).map (fun j => (⟨5 + j, EditKind.refGap⟩ : Edit))) =
      some ⟨0, 1, 3⟩ :=
  ⟨by decide, gapScan_consecutive_refGaps 3 5 (by decide) (by decide)⟩

/-! ## The header: lemmas -/

theorem printRefName_eq (name : List Char) :
    ∀ o : OutFileBuf, printRefName o name = o ++ sanitizedName name := by
  induction name with
  | nil => intro o; simp [printRefName, sanitizedName]
  | cons c rest ih =>
    intro o
    rw [printRefName]
    by_cases hc : isspace c = true
    · simp [sanitizedName, List.takeWhile_cons, hc]
    · have hc2 : isspace c = false := by simpa using hc
      rw [if_neg hc, ih]
      simp [sanitizedName, List.takeWhile_cons, hc2, write]

theorem sanitizedName_longest (name : List Char) :
    ∀ p : List Char, p <+: name → (∀ c ∈ p, isspace c = false) →
      p.length ≤ (sanitizedName name).length := by
  induction name with
  | nil =>
    intro p hp _
    have : p = [] := List.prefix_nil.mp hp
    simp [this]
  | cons c rest ih =>
    intro p hp hfree
    rcases p with _ | ⟨d, p2⟩
    · simp
    · obtain ⟨hdc, hp2⟩ := List.cons_prefix_cons.mp hp
      subst hdc
      have hd : isspace d = false := hfree d (List.mem_cons_self _ _)
      have h2 := ih p2 hp2 (fun x hx => hfree x (List.mem_cons_of_mem _ hx))
      simp only [sanitizedName, List.takeWhile_cons, hd, Bool.not_false, if_true,
        List.length_cons] at h2 ⊢
      omega

theorem printSqLinesLoop_eq (cfg : SamConfig)
    (hlen : cfg.reflens_.length = cfg.refnames_.length) :
    ∀ (k i : Nat) (o : OutFileBuf), i + k = cfg.refnames_.length →
      printSqLinesLoop cfg k i o =
        some (o ++ sqBlock ((cfg.refnames_.zip cfg.reflens_).drop i)) := by
  intro k
  induction k with
  | zero =>
    intro i o hik
    have : (cfg.refnames_.zip cfg.reflens_).drop i = [] :=
      List.drop_eq_nil_of_le (by simp [List.length_zip, hlen]; omega)
    simp [printSqLinesLoop, this, sqBlock]
  | succ k ih =>
    intro i o hik
    have hi1 : i < cfg.refnames_.length := by omega
    have hi2 : i < cfg.reflens_.length := by omega
    have hiz : i < (cfg.refnames_.zip cfg.reflens_).length := by
      simp [List.length_zip, hlen]; omega
    rw [printSqLinesLoop, List.getElem?_eq_getElem hi1, List.getElem?_eq_getElem hi2]
    simp only []
    rw [ih (i + 1) _ (by omega), List.drop_eq_getElem_cons hiz, sqBlock, List.getElem_zip,
      printRefName_eq]
    simp [sqLine, itoa10, write, writeChars, List.append_assoc]

theorem printSqLines_eq (cfg : SamConfig) (o : OutFileBuf)
    (hlen : cfg.reflens_.length = cfg.refnames_.length) :
    printSqLines cfg o = some (o ++ sqBlock (cfg.refnames_.zip cfg.reflens_)) := by
  unfold printSqLines
  rw [printSqLinesLoop_eq cfg hlen _ 0 o (by omega)]
  simp

/-! ## The header: verified properties -/

/-- Claim C8.  `printRefName` appends to the buffer exactly the longest
prefix of the name that has no whitespace character, and nothing else: what
it writes is a prefix of the name, has no whitespace, and no whitespace-free
prefix of the name is longer; it is the whole name when the name has no
whitespace and nothing when the name starts with whitespace.  On
`"chr1 extra"` it writes exactly `"chr1"`. -/
theorem printRefName_longest_prefix (o : OutFileBuf) (name : List Char) :
    printRefName o name = o ++ sanitizedName name ∧
    sanitizedName name <+: name ∧
    (∀ c ∈ sanitizedName name, isspace c = false) ∧
    (∀ p : List Char, p <+: name → (∀ c ∈ p, isspace c = false) →
      p.length ≤ (sanitizedName name).length) ∧
    ((∀ c ∈ name, isspace c = false) → sanitizedName name = name) ∧
    (∀ c rest, name = c :: rest → isspace c = true → sanitizedName name = []) ∧
    printRefName [] "chr1 extra".toList = "chr1".toList := by
  refine ⟨printRefName_eq name o, List.takeWhile_prefix _, ?_, sanitizedName_longest name,
    ?_, ?_, by decide⟩
  · intro c hc
    have h := List.mem_takeWhile_imp hc
    simpa using h
  · intro hall
    unfold sanitizedName
    rw [List.takeWhile_eq_self_iff]
    intro c hc
    simp [hall c hc]
  · intro c rest hname hc
    subst hname
    simp [sanitizedName, List.takeWhile_cons, hc]

/-- Claim C9.  For a catalog with as many lengths as names, `printSqLines`
appends, for each reference in catalog order, the line
`"@SQ\tSN:" ++ sanitized name ++ "\tLN:" ++ decimal length ++ "\n"`, and
nothing more. -/
theorem printSqLines_eq_sqBlock (cfg : SamConfig) (o : OutFileBuf)
    (hlen : cfg.reflens_.length = cfg.refnames_.length) :
    printSqLines cfg o = some (o ++ sqBlock (cfg.refnames_.zip cfg.reflens_)) := by
  exact printSqLines_eq cfg o hlen

/-- For the catalog `[("chrA",100),("chrB",250)]` the block is exactly
`"@SQ\tSN:chrA\tLN:100\n@SQ\tSN:chrB\tLN:250\n"`. -/
theorem printSqLines_eq_sqBlock_witness :
    twoRefConfig.reflens_.length = twoRefConfig.refnames_.length ∧
    printSqLines twoRefConfig [] =
      some ([] ++ sqBlock (twoRefConfig.refnames_.zip twoRefConfig.reflens_)) ∧
    printSqLines twoRefConfig [] =
      some "@SQ\tSN:chrA\tLN:100\n@SQ\tSN:chrB\tLN:250\n".toList :=
  ⟨by decide, printSqLines_eq_sqBlock twoRefConfig [] (by decide), by decide⟩

/-- Claim C10.  `printHeader` appends to the buffer, in this order: the line
`"@HD\tVN:1.0\tSO:unsorted\n"` iff `printHd`; the `@SQ` block iff `printSq`;
`"@RG" ++ rgid ++ rgs ++ "\n"` iff `rgid` is not empty, whatever `rgs` is; the
line `"@PG\tID:" ++ id ++ "\tPN:" ++ name ++ "\tVN:" ++ version ++ "\n"` iff
`printPg`.  The catalog has as many lengths as names whenever the `@SQ`
block is asked for. -/
theorem printHeader_eq_lines (cfg : SamConfig) (o : OutFileBuf) (rgid rgs : List Char)
    (printHd printSq printPg : Bool)
    (hlen : printSq = true → cfg.reflens_.length = cfg.refnames_.length) :
    printHeader cfg o rgid rgs printHd printSq printPg =
      some (o ++ (if printHd then hdLine else [])
        ++ (if printSq then sqBlock (cfg.refnames_.zip cfg.reflens_) else [])
        ++ (if rgid ≠ [] then rgLine rgid rgs else [])
        ++ (if printPg then pgLine cfg else [])) := by
  unfold printHeader
  cases printSq with
  | false =>
    cases printHd <;> cases printPg <;> rcases rgid with _ | ⟨c, r⟩ <;>
      simp [printHdLine, printPgLine, hdLine, rgLine, pgLine, write, writeChars, writeString]
  | true =>
    simp only [if_true]
    rw [printSqLines_eq cfg _ (hlen rfl)]
    cases printHd <;> cases printPg <;> rcases rgid with _ | ⟨c, r⟩ <;>
      simp [printHdLine, printPgLine, hdLine, rgLine, pgLine, write, writeChars, writeString]

/-- With the three flags off and an empty read-group identifier nothing is
written; with everything asked for the four parts come in the order `@HD`,
`@SQ`, `@RG`, `@PG`. -/
theorem printHeader_eq_lines_witness :
    (true = true → twoRefConfig.reflens_.length = twoRefConfig.refnames_.length) ∧
    printHeader twoRefConfig [] "\tID:g1".toList "\tSM:x".toList true true true =
      some ([] ++ (if true then hdLine else [])
        ++ (if true then sqBlock (twoRefConfig.refnames_.zip twoRefConfig.reflens_) else [])
        ++ (if "\tID:g1".toList ≠ [] then rgLine "\tID:g1".toList "\tSM:x".toList else [])
        ++ (if true then pgLine twoRefConfig else [])) ∧
    printHeader twoRefConfig [] "\tID:g1".toList "\tSM:x".toList true true true =
      some ("@HD\tVN:1.0\tSO:unsorted\n@SQ\tSN:chrA\tLN:100\n@SQ\tSN:chrB\tLN:250\n"
        ++ "@RG\tID:g1\tSM:x\n@PG\tID:bowtie2\tPN:bowtie2\tVN:2.0\n").toList ∧
    printHeader twoRefConfig [] [] "\tSM:x".toList false false false = some [] :=
  ⟨by decide,
    printHeader_eq_lines twoRefConfig [] "\tID:g1".toList "\tSM:x".toList true true true
      (by decide),
    by decide, by decide⟩

/-! ## The optional flags: lemmas on the rendering -/

theorem digitChar_isDigit (m : Nat) (h : m < 10) : (Nat.digitChar m).isDigit = true := by
  interval_cases m <;> decide

theorem toDigitsCore_isDigit :
    ∀ (fuel n : Nat) (acc : List Char), (∀ c ∈ acc, c.isDigit = true) →
      ∀ c ∈ Nat.toDigitsCore 10 fuel n acc, c.isDigit = true := by
  intro fuel
  induction fuel with
  | zero => intro n acc hacc c hc; exact hacc c (by simpa [Nat.toDigitsCore] using hc)
  | succ fuel ih =>
    intro n acc hacc c hc
    have hd : (Nat.digitChar (n % 10)).isDigit = true :=
      digitChar_isDigit _ (Nat.mod_lt _ (by decide))
    have hacc2 : ∀ x ∈ Nat.digitChar (n % 10) :: acc, x.isDigit = true := by
      intro x hx
      rcases List.mem_cons.mp hx with rfl | hx
      · exact hd
      · exact hacc x hx
    rw [Nat.toDigitsCore] at hc
    by_cases h0 : n / 10 = 0
    · simp only [h0, if_true] at hc
      exact hacc2 c hc
    · simp only [h0, if_false] at hc
      exact ih _ _ hacc2 c hc

theorem toDigits_isDigit (n : Nat) : ∀ c ∈ Nat.toDigits 10 n, c.isDigit = true :=
  toDigitsCore_isDigit _ _ [] (by simp)

theorem itoa10_no_tab (n : Nat) : '\t' ∉ itoa10 n := by
  intro h
  have := toDigits_isDigit n _ h
  exact absurd this (by decide)

theorem itoa10Score_no_tab (z : Int) : '\t' ∉ itoa10Score z := by
  cases z with
  | ofNat n => exact itoa10_no_tab n
  | negSucc n =>
    intro h
    rcases List.mem_cons.mp h with h | h
    · exact absurd h (by decide)
    · exact itoa10_no_tab _ h

theorem fieldText_no_tab (cfg : SamConfig) (exEnds : Bool) (rd : Read) (res : AlnRes)
    (flags : AlnFlags) (summ : AlnSetSumm) (mapqInp : List Char) (cnt : GapCounts)
    (hpat : '\t' ∉ rd.patFw) (hqual : '\t' ∉ rd.qual) (hprimer : rd.primer ≠ '\t')
    (htrimc : rd.trimc ≠ '\t') (hmd : '\t' ∉ res.printMD exEnds)
    (hyt : '\t' ∉ flags.printYT) (hyp : '\t' ∉ flags.printYP) (hym : '\t' ∉ flags.printYM)
    (hmapq : '\t' ∉ mapqInp) (hrgs : '\t' ∉ cfg.rgs_) (t : Tag) :
    '\t' ∉ fieldText cfg exEnds rd res flags summ mapqInp cnt t := by
  have hn := itoa10_no_tab
  have hz := itoa10Score_no_tab
  cases t <;> simp only [fieldText, List.mem_append, not_or] <;>
    first
    | exact ⟨by decide, hz _⟩
    | exact ⟨by decide, hn _⟩
    | exact ⟨by decide, by assumption⟩
    | assumption
    | simp
  exact ⟨fun _ => ⟨Ne.symm hprimer, Ne.symm htrimc⟩, hpat⟩

theorem renderFields_false (cfg : SamConfig) (exEnds : Bool) (rd : Read) (res : AlnRes)
    (flags : AlnFlags) (summ : AlnSetSumm) (mapqInp : List Char) (cnt : GapCounts)
    (ts : List Tag) :
    ∀ o : OutFileBuf, Tag.YF ∉ ts →
      renderFields cfg exEnds rd res flags summ mapqInp cnt (o, false) ts =
        (o ++ tabbed (ts.map (fieldText cfg exEnds rd res flags summ mapqInp cnt)), false) := by
  induction ts with
  | nil => intro o _; simp [renderFields, tabbed]
  | cons t rest ih =>
    intro o hyf
    have ht : t ≠ Tag.YF := fun h => hyf (h ▸ List.mem_cons_self _ _)
    have hrest : Tag.YF ∉ rest := fun h => hyf (List.mem_cons_of_mem _ h)
    have hstep : emitField cfg exEnds rd res flags summ mapqInp cnt (o, false) t =
        (o ++ ['\t'] ++ fieldText cfg exEnds rd res flags summ mapqInp cnt t, false) := by
      cases t <;> first | exact absurd rfl ht | rfl
    have h := ih (o ++ ['\t'] ++ fieldText cfg exEnds rd res flags summ mapqInp cnt t) hrest
    simp only [renderFields] at h ⊢
    rw [List.foldl_cons, hstep, h]
    simp [tabbed, List.append_assoc]

theorem renderFields_true (cfg : SamConfig) (exEnds : Bool) (rd : Read) (res : AlnRes)
    (flags : AlnFlags) (summ : AlnSetSumm) (mapqInp : List Char) (cnt : GapCounts)
    (ts : List Tag) (o : OutFileBuf) (hyf : Tag.YF ∉ ts) :
    (renderFields cfg exEnds rd res flags summ mapqInp cnt (o, true) ts).1 =
      o ++ joined (ts.map (fieldText cfg exEnds rd res flags summ mapqInp cnt)) := by
  rcases ts with _ | ⟨t, rest⟩
  · simp [renderFields, joined]
  · have ht : t ≠ Tag.YF := fun h => hyf (h ▸ List.mem_cons_self _ _)
    have hrest : Tag.YF ∉ rest := fun h => hyf (List.mem_cons_of_mem _ h)
    have hstep : emitField cfg exEnds rd res flags summ mapqInp cnt (o, true) t =
        (o ++ fieldText cfg exEnds rd res flags summ mapqInp cnt t, false) := by
      cases t <;> first | exact absurd rfl ht | rfl
    have h := renderFields_false cfg exEnds rd res flags summ mapqInp cnt rest
      (o ++ fieldText cfg exEnds rd res flags summ mapqInp cnt t) hrest
    simp only [renderFields] at h ⊢
    rw [List.foldl_cons, hstep, h]
    simp [joined, List.append_assoc]

theorem count_tab_tabbed (texts : List (List Char)) (h : ∀ t ∈ texts, '\t' ∉ t) :
    (tabbed texts).count '\t' = texts.length := by
  induction texts with
  | nil => simp [tabbed]
  | cons t rest ih =>
    have h1 : List.count '\t' t = 0 :=
      List.count_eq_zero_of_not_mem (h t (List.mem_cons_self _ _))
    have h2 := ih (fun x hx => h x (List.mem_cons_of_mem _ hx))
    simp [tabbed, List.count_cons, h1, h2]

theorem YF_not_mem_activeTags (cfg : SamConfig) (res : AlnRes) (flags : AlnFlags)
    (summ : AlnSetSumm) (mapqInp : List Char)
    (hYF : (cfg.print_yf_ && flags.filtered) = false) :
    Tag.YF ∉ activeTags cfg res flags summ mapqInp := by
  intro h
  have := (List.mem_filter.mp h).2
  simp [rowActive, hYF] at this

/-! ## The optional flags: verified properties -/

/-- Claim C1, as stated, fails.  With the `CS` and `CQ` toggles on and a
result that is not color-space, two toggles are on and nothing is written,
so the output has no tab where the claim asks for one.  With every toggle
off and a read-group string, no toggle is on and the read-group field is
written all the same. -/
theorem tab_count_is_not_toggles_minus_one :
    togglesOn csCqConfig = 2 ∧
    printAlignedOptFlags csCqConfig [] true false plainRead plainRes plainFlags plainSumm []
      = some [] ∧
    ([] : List Char).count '\t' ≠ togglesOn csCqConfig - 1 ∧
    togglesOn readGroupOnlyConfig = 0 ∧
    printAlignedOptFlags readGroupOnlyConfig [] true false plainRead plainRes plainFlags
      plainSumm [] = some "RG:Z:g1".toList := by
  decide

/-- Claim C2.  On every input whose edit list fits a `size_t` index,
`printAlignedOptFlags` writes the fields whose condition holds one after the
other in the declared order AS, CS, CQ, XS, XN, XM, XO, XG, NM, MD, YS, YT,
YP, YM, YF, YI, read group, each at most once; when the condition of every
row holds, all seventeen are written in exactly that order. -/
theorem printAlignedOptFlags_field_order (cfg : SamConfig) (o : OutFileBuf)
    (first exEnds : Bool) (rd : Read) (res : AlnRes) (flags : AlnFlags) (summ : AlnSetSumm)
    (mapqInp : List Char) (hn : res.ned.length < 2 ^ 64) :
    ∃ cnt, gapScan res.ned = some cnt ∧
      printAlignedOptFlags cfg o first exEnds rd res flags summ mapqInp =
        some (renderFields cfg exEnds rd res flags summ mapqInp cnt (o, first)
          (activeTags cfg res flags summ mapqInp)).1 ∧
      (activeTags cfg res flags summ mapqInp).Sublist allTags ∧
      (activeTags cfg res flags summ mapqInp).Nodup ∧
      (∀ t, t ∈ activeTags cfg res flags summ mapqInp ↔
        rowActive cfg res flags summ mapqInp t = true) ∧
      ((∀ t, rowActive cfg res flags summ mapqInp t = true) →
        activeTags cfg res flags summ mapqInp = allTags ∧
        (activeTags cfg res flags summ mapqInp).length = 17) := by
  have hnodup : allTags.Nodup := by decide
  have hall : ∀ t : Tag, t ∈ allTags := by intro t; cases t <;> decide
  refine ⟨gapMachine res.ned, gapScan_eq_gapMachine _ hn, ?_, List.filter_sublist _,
    hnodup.filter _, ?_, ?_⟩
  · rw [printAlignedOptFlags_eq_render, gapScan_eq_gapMachine _ hn, Option.map_some']
  · intro t
    simp [activeTags, List.mem_filter, hall t]
  · intro h
    have : activeTags cfg res flags summ mapqInp = allTags := by
      unfold activeTags
      exact List.filter_eq_self.mpr (fun t _ => h t)
    rw [this]
    exact ⟨rfl, rfl⟩

/-- With every toggle on, a color-space result of a paired, filtered read in
mixed mode, a MAPQ string and a read-group string, the seventeen fields come
out in the declared order. -/
theorem printAlignedOptFlags_field_order_witness :
    colorRes.ned.length < 2 ^ 64 ∧
    printAlignedOptFlags allOnConfig [] true false plainRead colorRes filteredPairFlags
      pairedSumm "m".toList =
      some ("AS:i:-6\tCS:Z:ACGT\tCQ:Z:IIII\tXS:i:0\tXN:i:0\tXM:i:1\tXO:i:1\tXG:i:2\tNM:i:3"
        ++ "\tMD:Z:1A2\tYS:i:-9\tYT:Z:UU\tYP:i:0\tYM:i:0\tYF:Z:NS\tYI:Z:m\tRG:Z:g1").toList ∧
    ∃ cnt, gapScan colorRes.ned = some cnt ∧
      printAlignedOptFlags allOnConfig [] true false plainRead colorRes filteredPairFlags
          pairedSumm "m".toList =
        some (renderFields allOnConfig false plainRead colorRes filteredPairFlags pairedSumm
          "m".toList cnt ([], true)
          (activeTags allOnConfig colorRes filteredPairFlags pairedSumm "m".toList)).1 ∧
      (activeTags allOnConfig colorRes filteredPairFlags pairedSumm "m".toList).Sublist
        allTags ∧
      (activeTags allOnConfig colorRes filteredPairFlags pairedSumm "m".toList).Nodup ∧
      (∀ t, t ∈ activeTags allOnConfig colorRes filteredPairFlags pairedSumm "m".toList ↔
        rowActive allOnConfig colorRes filteredPairFlags pairedSumm "m".toList t = true) ∧
      ((∀ t, rowActive allOnConfig colorRes filteredPairFlags pairedSumm "m".toList t = true) →
        activeTags allOnConfig colorRes filteredPairFlags pairedSumm "m".toList = allTags ∧
        (activeTags allOnConfig colorRes filteredPairFlags pairedSumm "m".toList).length
          = 17) :=
  ⟨by decide, by decide,
    printAlignedOptFlags_field_order allOnConfig [] true false plainRead colorRes
      filteredPairFlags pairedSumm "m".toList (by decide)⟩

/-! ## The optional flags: single fields -/

theorem emitField_appends (cfg : SamConfig) (exEnds : Bool) (rd : Read) (res : AlnRes)
    (flags : AlnFlags) (summ : AlnSetSumm) (mapqInp : List Char) (cnt : GapCounts)
    (s : OutFileBuf × Bool) (t : Tag) :
    ∃ w, (emitField cfg exEnds rd res flags summ mapqInp cnt s t).1 = s.1 ++ w := by
  rcases s with ⟨a, b⟩
  cases t <;> cases b <;> simp [emitField, List.append_assoc]

theorem renderFields_appends (cfg : SamConfig) (exEnds : Bool) (rd : Read) (res : AlnRes)
    (flags : AlnFlags) (summ : AlnSetSumm) (mapqInp : List Char) (cnt : GapCounts)
    (ts : List Tag) :
    ∀ s : OutFileBuf × Bool,
      ∃ w, (renderFields cfg exEnds rd res flags summ mapqInp cnt s ts).1 = s.1 ++ w := by
  induction ts with
  | nil => intro s; exact ⟨[], by simp [renderFields]⟩
  | cons t rest ih =>
    intro s
    obtain ⟨w1, h1⟩ := emitField_appends cfg exEnds rd res flags summ mapqInp cnt s t
    obtain ⟨w2, h2⟩ := ih (emitField cfg exEnds rd res flags summ mapqInp cnt s t)
    refine ⟨w1 ++ w2, ?_⟩
    simp only [renderFields, List.foldl_cons] at h2 ⊢
    rw [h2, h1, List.append_assoc]

theorem field_written (cfg : SamConfig) (exEnds : Bool) (rd : Read) (res : AlnRes)
    (flags : AlnFlags) (summ : AlnSetSumm) (mapqInp : List Char) (cnt : GapCounts)
    (o : OutFileBuf) (first : Bool) (ts : List Tag) (t : Tag) (ht : t ∈ ts)
    (hyf : t ≠ Tag.YF) :
    ∃ pre post : List Char,
      (renderFields cfg exEnds rd res flags summ mapqInp cnt (o, first) ts).1 =
        o ++ pre ++ fieldText cfg exEnds rd res flags summ mapqInp cnt t ++ post := by
  obtain ⟨l1, l2, rfl⟩ := List.append_of_mem ht
  obtain ⟨w1, h1⟩ := renderFields_appends cfg exEnds rd res flags summ mapqInp cnt l1 (o, first)
  generalize hs : renderFields cfg exEnds rd res flags summ mapqInp cnt (o, first) l1 = s at h1
  have hstep : emitField cfg exEnds rd res flags summ mapqInp cnt s t =
      ((if s.2 then s.1 else s.1 ++ ['\t']) ++
        fieldText cfg exEnds rd res flags summ mapqInp cnt t, false) := by
    cases t <;> first | exact absurd rfl hyf | rfl
  obtain ⟨w2, h2⟩ := renderFields_appends cfg exEnds rd res flags summ mapqInp cnt l2
    (emitField cfg exEnds rd res flags summ mapqInp cnt s t)
  have hsplit : renderFields cfg exEnds rd res flags summ mapqInp cnt (o, first)
      (l1 ++ t :: l2) =
      renderFields cfg exEnds rd res flags summ mapqInp cnt
        (emitField cfg exEnds rd res flags summ mapqInp cnt s t) l2 := by
    simp only [renderFields, List.foldl_append, List.foldl_cons] at hs ⊢
    rw [hs]
  rw [hsplit, h2, hstep]
  simp only at h1
  refine ⟨w1 ++ (if s.2 then [] else ['\t']), w2, ?_⟩
  rw [h1]
  cases s.2 <;> simp [List.append_assoc]

theorem mem_activeTags (cfg : SamConfig) (res : AlnRes) (flags : AlnFlags)
    (summ : AlnSetSumm) (mapqInp : List Char) (t : Tag) :
    t ∈ activeTags cfg res flags summ mapqInp ↔
      rowActive cfg res flags summ mapqInp t = true := by
  have hall : t ∈ allTags := by cases t <;> decide
  simp [activeTags, List.mem_filter, hall]

theorem mem_emptyTags_filter (cfg : SamConfig) (res : AlnRes) (flags : AlnFlags)
    (summ : AlnSetSumm) (mapqInp : List Char) (t : Tag) (ht : t ∈ emptyTags) :
    t ∈ emptyTags.filter (rowActive cfg res flags summ mapqInp) ↔
      rowActive cfg res flags summ mapqInp t = true := by
  simp [List.mem_filter, ht]

theorem printAlignedOptFlags_some_render (cfg : SamConfig) (o : OutFileBuf)
    (first exEnds : Bool) (rd : Read) (res : AlnRes) (flags : AlnFlags) (summ : AlnSetSumm)
    (mapqInp : List Char) (hn : res.ned.length < 2 ^ 64) :
    printAlignedOptFlags cfg o first exEnds rd res flags summ mapqInp =
      some (renderFields cfg exEnds rd res flags summ mapqInp (gapMachine res.ned) (o, first)
        (activeTags cfg res flags summ mapqInp)).1 := by
  rw [printAlignedOptFlags_eq_render, gapScan_eq_gapMachine _ hn, Option.map_some']

theorem printAlignedOptFlags_field_written (cfg : SamConfig) (o : OutFileBuf)
    (first exEnds : Bool) (rd : Read) (res : AlnRes) (flags : AlnFlags) (summ : AlnSetSumm)
    (mapqInp : List Char) (hn : res.ned.length < 2 ^ 64) (t : Tag)
    (ht : rowActive cfg res flags summ mapqInp t = true) (hyf : t ≠ Tag.YF) :
    ∃ pre post : List Char,
      printAlignedOptFlags cfg o first exEnds rd res flags summ mapqInp =
        some (o ++ pre ++
          fieldText cfg exEnds rd res flags summ mapqInp (gapMachine res.ned) t ++ post) := by
  obtain ⟨pre, post, h⟩ := field_written cfg exEnds rd res flags summ mapqInp
    (gapMachine res.ned) o first (activeTags cfg res flags summ mapqInp) t
    ((mem_activeTags cfg res flags summ mapqInp t).mpr ht) hyf
  exact ⟨pre, post, by rw [printAlignedOptFlags_some_render _ _ _ _ _ _ _ _ _ hn, h]⟩

/-! ## The optional flags: the reduced variant and single rows -/

/-- Claim C11.  `printEmptyOptFlags` reads only the `YT`, `YP`, `YM` and `YF`
toggles and the read-group string: two configurations that agree on these
give the same bytes for the same `first`, flags and summary, whatever their
other toggles are, so the rows AS, XS, XN, XM, XO, XG, NM, MD, YS, CS, CQ and
YI never show. -/
theorem printEmptyOptFlags_reads_five_rows (cfg1 cfg2 : SamConfig) (o : OutFileBuf)
    (first : Bool) (flags : AlnFlags) (summ : AlnSetSumm)
    (hyt : cfg1.print_yt_ = cfg2.print_yt_) (hyp : cfg1.print_yp_ = cfg2.print_yp_)
    (hym : cfg1.print_ym_ = cfg2.print_ym_) (hyf : cfg1.print_yf_ = cfg2.print_yf_)
    (hrgs : cfg1.rgs_ = cfg2.rgs_) :
    printEmptyOptFlags cfg1 o first flags summ = printEmptyOptFlags cfg2 o first flags summ := by
  unfold printEmptyOptFlags
  rw [hyt, hyp, hym, hyf, hrgs]

/-- With every toggle on and with only the `YT`, `YP`, `YM`, `YF` toggles on,
the same read-group string gives the same four fields. -/
theorem printEmptyOptFlags_reads_five_rows_witness :
    (allOnConfig.print_yt_ = emptyRowsConfig.print_yt_ ∧
      allOnConfig.print_yp_ = emptyRowsConfig.print_yp_ ∧
      allOnConfig.print_ym_ = emptyRowsConfig.print_ym_ ∧
      allOnConfig.print_yf_ = emptyRowsConfig.print_yf_ ∧
      allOnConfig.rgs_ = emptyRowsConfig.rgs_) ∧
    printEmptyOptFlags allOnConfig [] true mixedPairFlags pairedSumm =
      printEmptyOptFlags emptyRowsConfig [] true mixedPairFlags pairedSumm ∧
    printEmptyOptFlags allOnConfig [] true mixedPairFlags pairedSumm =
      "YT:Z:UU\tYP:i:0\tYM:i:0\tRG:Z:g1".toList :=
  ⟨by decide,
    printEmptyOptFlags_reads_five_rows allOnConfig emptyRowsConfig [] true mixedPairFlags
      pairedSumm (by decide) (by decide) (by decide) (by decide) (by decide),
    by decide⟩

/-- Claim C12.  With the AS, CS, CQ, XS, XN, XM, XO, XG, NM, MD, YS and YI
toggles off, `printAlignedOptFlags` writes, for every read, result, flags,
summary and `first`, exactly the bytes that `printEmptyOptFlags` writes for
the same `first`, flags, summary and configuration: the `YT`, `YP`, `YM`,
`YF` and read-group rows have the same conditions in both. -/
theorem printAlignedOptFlags_eq_printEmptyOptFlags (cfg : SamConfig) (o : OutFileBuf)
    (first exEnds : Bool) (rd : Read) (res : AlnRes) (flags : AlnFlags) (summ : AlnSetSumm)
    (mapqInp : List Char) (hn : res.ned.length < 2 ^ 64)
    (has : cfg.print_as_ = false) (hcs : cfg.print_cs_ = false) (hcq : cfg.print_cq_ = false)
    (hxs : cfg.print_xs_ = false) (hxn : cfg.print_xn_ = false) (hxm : cfg.print_xm_ = false)
    (hxo : cfg.print_xo_ = false) (hxg : cfg.print_xg_ = false) (hnm : cfg.print_nm_ = false)
    (hmd : cfg.print_md_ = false) (hys : cfg.print_ys_ = false) (hyi : cfg.print_yi_ = false) :
    printAlignedOptFlags cfg o first exEnds rd res flags summ mapqInp =
      some (printEmptyOptFlags cfg o first flags summ) := by
  rw [printAlignedOptFlags_some_render _ _ _ _ _ _ _ _ _ hn,
    activeTags_eq_emptyTags cfg res flags summ mapqInp has hcs hcq hxs hxn hxm hxo hxg hnm hmd
      hys hyi,
    printEmptyOptFlags_eq_render cfg o first flags summ exEnds rd res mapqInp
      (gapMachine res.ned)]

theorem printAlignedOptFlags_eq_printEmptyOptFlags_witness :
    (plainRes.ned.length < 2 ^ 64 ∧
      emptyRowsConfig.print_as_ = false ∧ emptyRowsConfig.print_cs_ = false ∧
      emptyRowsConfig.print_cq_ = false ∧ emptyRowsConfig.print_xs_ = false ∧
      emptyRowsConfig.print_xn_ = false ∧ emptyRowsConfig.print_xm_ = false ∧
      emptyRowsConfig.print_xo_ = false ∧ emptyRowsConfig.print_xg_ = false ∧
      emptyRowsConfig.print_nm_ = false ∧ emptyRowsConfig.print_md_ = false ∧
      emptyRowsConfig.print_ys_ = false ∧ emptyRowsConfig.print_yi_ = false) ∧
    printAlignedOptFlags emptyRowsConfig [] false false plainRead plainRes mixedPairFlags
        pairedSumm "m".toList =
      some (printEmptyOptFlags emptyRowsConfig [] false mixedPairFlags pairedSumm) ∧
    printEmptyOptFlags emptyRowsConfig [] false mixedPairFlags pairedSumm =
      "\tYT:Z:UU\tYP:i:0\tYM:i:0\tRG:Z:g1".toList :=
  ⟨by decide,
    printAlignedOptFlags_eq_printEmptyOptFlags emptyRowsConfig [] false false plainRead
      plainRes mixedPairFlags pairedSumm "m".toList (by decide) (by decide) (by decide)
      (by decide) (by decide) (by decide) (by decide) (by decide) (by decide) (by decide)
      (by decide) (by decide) (by decide),
    by decide⟩

/-- Claim C13.  With the `XS` toggle on, `printAlignedOptFlags` returns a
result in which the `XS` row is among the rows written and its field,
`"XS:i:"` followed by the decimal second-best score of the read's mate slot
when that score is valid and by `0` when it is not, is part of the output;
mate index 0 or 1 reads the first slot and mate index 2 the second. -/
theorem printAlignedOptFlags_XS_field (cfg : SamConfig) (o : OutFileBuf)
    (first exEnds : Bool) (rd : Read) (res : AlnRes) (flags : AlnFlags) (summ : AlnSetSumm)
    (mapqInp : List Char) (hn : res.ned.length < 2 ^ 64) (hxs : cfg.print_xs_ = true) :
    Tag.XS ∈ activeTags cfg res flags summ mapqInp ∧
    (∃ pre post : List Char,
      printAlignedOptFlags cfg o first exEnds rd res flags summ mapqInp =
        some (o ++ pre ++ xsField (summ.secbestMate (decide (rd.mate < 2))) ++ post)) ∧
    ((rd.mate = 0 ∨ rd.mate = 1) →
      ∃ pre post : List Char,
        printAlignedOptFlags cfg o first exEnds rd res flags summ mapqInp =
          some (o ++ pre ++ xsField (summ.secbestMate true) ++ post)) ∧
    (rd.mate = 2 →
      ∃ pre post : List Char,
        printAlignedOptFlags cfg o first exEnds rd res flags summ mapqInp =
          some (o ++ pre ++ xsField (summ.secbestMate false) ++ post)) ∧
    (∀ sc : AlnScore, sc.valid = false → xsField sc = "XS:i:0".toList) ∧
    (∀ sc : AlnScore, sc.valid = true → xsField sc = "XS:i:".toList ++ itoa10Score sc.score) := by
  have hact : rowActive cfg res flags summ mapqInp Tag.XS = true := by
    simpa [rowActive] using hxs
  have htext : fieldText cfg exEnds rd res flags summ mapqInp (gapMachine res.ned) Tag.XS =
      xsField (summ.secbestMate (decide (rd.mate < 2))) := by
    simp only [fieldText, xsField]
    cases (summ.secbestMate (decide (rd.mate < 2))).valid <;> rfl
  have hw := printAlignedOptFlags_field_written cfg o first exEnds rd res flags summ mapqInp
    hn Tag.XS hact (by decide)
  rw [htext] at hw
  refine ⟨(mem_activeTags cfg res flags summ mapqInp Tag.XS).mpr hact, hw, ?_, ?_, ?_, ?_⟩
  · intro hm
    have : decide (rd.mate < 2) = true := by
      rcases hm with h | h <;> simp [h]
    rw [this] at hw
    exact hw
  · intro hm
    have : decide (rd.mate < 2) = false := by simp [hm]
    rw [this] at hw
    exact hw
  · intro sc h
    simp [xsField, h]
  · intro sc h
    simp [xsField, h]

/-- A read without a valid second-best score gets `XS:i:0`; the second read
of a pair gets the score of the second slot. -/
theorem printAlignedOptFlags_XS_field_witness :
    (plainRes.ned.length < 2 ^ 64 ∧ asXsConfig.print_xs_ = true) ∧
    Tag.XS ∈ activeTags asXsConfig plainRes plainFlags secondSlotSumm [] ∧
    (∃ pre post : List Char,
      printAlignedOptFlags asXsConfig [] true false mateTwoRead plainRes plainFlags
          secondSlotSumm [] =
        some ([] ++ pre ++ xsField (secondSlotSumm.secbestMate (decide (mateTwoRead.mate < 2)))
          ++ post)) ∧
    printAlignedOptFlags asXsConfig [] true false mateTwoRead plainRes plainFlags
      secondSlotSumm [] = some "AS:i:-6\tXS:i:-12".toList ∧
    printAlignedOptFlags asXsConfig [] true false plainRead plainRes plainFlags
      secondSlotSumm [] = some "AS:i:-6\tXS:i:0".toList :=
  ⟨by decide,
    (printAlignedOptFlags_XS_field asXsConfig [] true false mateTwoRead plainRes plainFlags
      secondSlotSumm [] (by decide) (by decide)).1,
    (printAlignedOptFlags_XS_field asXsConfig [] true false mateTwoRead plainRes plainFlags
      secondSlotSumm [] (by decide) (by decide)).2.1,
    by decide, by decide⟩

/-- Claim C14.  `printAlignedOptFlags` writes the rows whose condition holds;
the `CS` row is among them iff the `CS` toggle is on and the result is
color-space, and the `CQ` row iff the `CQ` toggle is on and the result is
color-space.  The `CS` field is `"CS:Z:"`, then the primer base and the
trimmed color when the primer base is not `?`, then the forward read
sequence; the `CQ` field is `"CQ:Z:"` and the quality string.  A row that is
written has its field in the output. -/
theorem printAlignedOptFlags_CS_CQ_fields (cfg : SamConfig) (o : OutFileBuf)
    (first exEnds : Bool) (rd : Read) (res : AlnRes) (flags : AlnFlags) (summ : AlnSetSumm)
    (mapqInp : List Char) (hn : res.ned.length < 2 ^ 64) :
    printAlignedOptFlags cfg o first exEnds rd res flags summ mapqInp =
      some (renderFields cfg exEnds rd res flags summ mapqInp (gapMachine res.ned) (o, first)
        (activeTags cfg res flags summ mapqInp)).1 ∧
    (Tag.CS ∈ activeTags cfg res flags summ mapqInp ↔
      cfg.print_cs_ = true ∧ res.color = true) ∧
    (Tag.CQ ∈ activeTags cfg res flags summ mapqInp ↔
      cfg.print_cq_ = true ∧ res.color = true) ∧
    fieldText cfg exEnds rd res flags summ mapqInp (gapMachine res.ned) Tag.CS = csField rd ∧
    fieldText cfg exEnds rd res flags summ mapqInp (gapMachine res.ned) Tag.CQ = cqField rd ∧
    (cfg.print_cs_ = true ∧ res.color = true →
      ∃ pre post : List Char,
        printAlignedOptFlags cfg o first exEnds rd res flags summ mapqInp =
          some (o ++ pre ++ csField rd ++ post)) ∧
    (cfg.print_cq_ = true ∧ res.color = true →
      ∃ pre post : List Char,
        printAlignedOptFlags cfg o first exEnds rd res flags summ mapqInp =
          some (o ++ pre ++ cqField rd ++ post)) ∧
    (rd.primer ≠ '?' → csField rd = "CS:Z:".toList ++ rd.primer :: rd.trimc :: rd.patFw) ∧
    (rd.primer = '?' → csField rd = "CS:Z:".toList ++ rd.patFw) := by
  have hcs : fieldText cfg exEnds rd res flags summ mapqInp (gapMachine res.ned) Tag.CS =
      csField rd := by
    simp only [fieldText, csField]
    by_cases hp : rd.primer = '?' <;> simp [hp]
  have hcq : fieldText cfg exEnds rd res flags summ mapqInp (gapMachine res.ned) Tag.CQ =
      cqField rd := rfl
  have hmemcs : Tag.CS ∈ activeTags cfg res flags summ mapqInp ↔
      cfg.print_cs_ = true ∧ res.color = true := by
    rw [mem_activeTags]
    simp [rowActive]
  have hmemcq : Tag.CQ ∈ activeTags cfg res flags summ mapqInp ↔
      cfg.print_cq_ = true ∧ res.color = true := by
    rw [mem_activeTags]
    simp [rowActive]
  refine ⟨printAlignedOptFlags_some_render _ _ _ _ _ _ _ _ _ hn, hmemcs, hmemcq, hcs, hcq,
    ?_, ?_, ?_, ?_⟩
  · intro h
    have hw := printAlignedOptFlags_field_written cfg o first exEnds rd res flags summ mapqInp
      hn Tag.CS ((mem_activeTags cfg res flags summ mapqInp Tag.CS).mp (hmemcs.mpr h))
      (by decide)
    rw [hcs] at hw
    exact hw
  · intro h
    have hw := printAlignedOptFlags_field_written cfg o first exEnds rd res flags summ mapqInp
      hn Tag.CQ ((mem_activeTags cfg res flags summ mapqInp Tag.CQ).mp (hmemcq.mpr h))
      (by decide)
    rw [hcq] at hw
    exact hw
  · intro hp
    simp [csField, hp]
  · intro hp
    simp [csField, hp]

/-- A color-space result with every toggle on has both fields, with the
primer base and the trimmed color before the sequence; the same read gets
neither field from a result that is not color-space. -/
theorem printAlignedOptFlags_CS_CQ_fields_witness :
    colorRes.ned.length < 2 ^ 64 ∧
    (Tag.CS ∈ activeTags allOnConfig colorRes plainFlags plainSumm [] ↔
      allOnConfig.print_cs_ = true ∧ colorRes.color = true) ∧
    printAlignedOptFlags csCqConfig [] true false mateTwoRead colorRes plainFlags plainSumm []
      = some "CS:Z:T00123\tCQ:Z:IIII".toList ∧
    printAlignedOptFlags csCqConfig [] true false plainRead colorRes plainFlags plainSumm []
      = some "CS:Z:ACGT\tCQ:Z:IIII".toList ∧
    printAlignedOptFlags csCqConfig [] true false mateTwoRead plainRes plainFlags plainSumm []
      = some [] :=
  ⟨by decide,
    (printAlignedOptFlags_CS_CQ_fields allOnConfig [] true false mateTwoRead colorRes
      plainFlags plainSumm [] (by decide)).2.1,
    by decide, by decide, by decide⟩

/-- Claim C15.  In `printAlignedOptFlags` and in `printEmptyOptFlags` the `YP`
row is written iff its toggle is on and the flags are part-of-pair and
repetitive-eligible, and the `YM` row iff its toggle is on and the flags are
repetitive-eligible and (mixed-mode or not part-of-pair).  With both toggles
on: neither is written when the flags are not repetitive-eligible, exactly
one when they are and are not both part-of-pair and mixed-mode, and both iff
they are part-of-pair, mixed-mode and repetitive-eligible. -/
theorem YP_YM_rows (cfg : SamConfig) (o : OutFileBuf)
    (first exEnds : Bool) (rd : Read) (res : AlnRes) (flags : AlnFlags) (summ : AlnSetSumm)
    (mapqInp : List Char) (hn : res.ned.length < 2 ^ 64) :
    (printAlignedOptFlags cfg o first exEnds rd res flags summ mapqInp =
        some (renderFields cfg exEnds rd res flags summ mapqInp (gapMachine res.ned) (o, first)
          (activeTags cfg res flags summ mapqInp)).1 ∧
      printEmptyOptFlags cfg o first flags summ =
        (renderFields cfg exEnds rd res flags summ mapqInp (gapMachine res.ned) (o, first)
          (emptyTags.filter (rowActive cfg res flags summ mapqInp))).1) ∧
    (∀ ts : List Tag,
      ts = activeTags cfg res flags summ mapqInp ∨
        ts = emptyTags.filter (rowActive cfg res flags summ mapqInp) →
      (Tag.YP ∈ ts ↔
        cfg.print_yp_ = true ∧ flags.partOfPair = true ∧ flags.canMax = true) ∧
      (Tag.YM ∈ ts ↔
        cfg.print_ym_ = true ∧ flags.canMax = true ∧
          (flags.isMixedMode = true ∨ flags.partOfPair = false)) ∧
      (cfg.print_yp_ = true → cfg.print_ym_ = true →
        (flags.canMax = false → Tag.YP ∉ ts ∧ Tag.YM ∉ ts) ∧
        (flags.canMax = true → ¬ (flags.partOfPair = true ∧ flags.isMixedMode = true) →
          (Tag.YP ∈ ts ∧ Tag.YM ∉ ts) ∨ (Tag.YP ∉ ts ∧ Tag.YM ∈ ts)) ∧
        (Tag.YP ∈ ts ∧ Tag.YM ∈ ts ↔
          flags.partOfPair = true ∧ flags.isMixedMode = true ∧ flags.canMax = true))) := by
  refine ⟨⟨printAlignedOptFlags_some_render _ _ _ _ _ _ _ _ _ hn,
    printEmptyOptFlags_eq_render cfg o first flags summ exEnds rd res mapqInp _⟩, ?_⟩
  intro ts hts
  have hyp : Tag.YP ∈ ts ↔
      cfg.print_yp_ = true ∧ flags.partOfPair = true ∧ flags.canMax = true := by
    rcases hts with rfl | rfl
    · rw [mem_activeTags]
      simp [rowActive, and_assoc]
    · rw [mem_emptyTags_filter _ _ _ _ _ _ (by decide)]
      simp [rowActive, and_assoc]
  have hym : Tag.YM ∈ ts ↔
      cfg.print_ym_ = true ∧ flags.canMax = true ∧
        (flags.isMixedMode = true ∨ flags.partOfPair = false) := by
    rcases hts with rfl | rfl
    · rw [mem_activeTags]
      simp [rowActive, and_assoc]
    · rw [mem_emptyTags_filter _ _ _ _ _ _ (by decide)]
      simp [rowActive, and_assoc]
  refine ⟨hyp, hym, ?_⟩
  intro h1 h2
  rw [hyp, hym]
  cases hc : flags.canMax <;> cases hp : flags.partOfPair <;> cases hm : flags.isMixedMode <;>
    simp [h1, h2]

/-- An unpaired repetitive-eligible read gets `YM` alone; a paired read in
mixed mode gets `YP` and `YM`, from both functions. -/
theorem YP_YM_rows_witness :
    plainRes.ned.length < 2 ^ 64 ∧
    (printAlignedOptFlags emptyRowsConfig [] true false plainRead plainRes mixedPairFlags
          pairedSumm [] =
        some (renderFields emptyRowsConfig false plainRead plainRes mixedPairFlags pairedSumm
          [] (gapMachine plainRes.ned) ([], true)
          (activeTags emptyRowsConfig plainRes mixedPairFlags pairedSumm [])).1 ∧
      printEmptyOptFlags emptyRowsConfig [] true mixedPairFlags pairedSumm =
        (renderFields emptyRowsConfig false plainRead plainRes mixedPairFlags pairedSumm []
          (gapMachine plainRes.ned) ([], true)
          (emptyTags.filter (rowActive emptyRowsConfig plainRes mixedPairFlags pairedSumm
            []))).1) ∧
    printAlignedOptFlags emptyRowsConfig [] true false plainRead plainRes mixedPairFlags
      pairedSumm [] = some "YT:Z:UU\tYP:i:0\tYM:i:0\tRG:Z:g1".toList ∧
    printEmptyOptFlags emptyRowsConfig [] true mixedPairFlags pairedSumm =
      "YT:Z:UU\tYP:i:0\tYM:i:0\tRG:Z:g1".toList ∧
    printEmptyOptFlags emptyRowsConfig [] true plainFlags plainSumm =
      "YT:Z:UU\tYM:i:0\tRG:Z:g1".toList :=
  ⟨by decide,
    (YP_YM_rows emptyRowsConfig [] true false plainRead plainRes mixedPairFlags pairedSumm []
      (by decide)).1,
    by decide, by decide, by decide⟩

/-! ## The `@SQ` block: columns -/

theorem count_eq_zero_of_isspace (c : Char) (hc : isspace c = true) (name : List Char) :
    (sanitizedName name).count c = 0 := by
  apply List.count_eq_zero_of_not_mem
  intro h
  have h2 := List.mem_takeWhile_imp h
  simp [hc] at h2

theorem count_eq_zero_of_not_isDigit (c : Char) (hc : c.isDigit = false) (n : Nat) :
    (Nat.toDigits 10 n).count c = 0 := by
  apply List.count_eq_zero_of_not_mem
  intro h
  have := toDigits_isDigit n c h
  simp [hc] at this

theorem sqLine_counts (name : List Char) (len : Nat) :
    (sqLine name len).count '\n' = 1 ∧ (sqLine name len).count '\t' = 2 := by
  have h1 := count_eq_zero_of_isspace '\n' (by decide) name
  have h2 := count_eq_zero_of_isspace '\t' (by decide) name
  have h3 := count_eq_zero_of_not_isDigit '\n' (by decide) len
  have h4 := count_eq_zero_of_not_isDigit '\t' (by decide) len
  have a1 : List.count '\n' "@SQ\tSN:".toList = 0 := by decide
  have a2 : List.count '\t' "@SQ\tSN:".toList = 1 := by decide
  have b1 : List.count '\n' "\tLN:".toList = 0 := by decide
  have b2 : List.count '\t' "\tLN:".toList = 1 := by decide
  have c1 : List.count '\n' "\n".toList = 1 := by decide
  have c2 : List.count '\t' "\n".toList = 0 := by decide
  simp only [sqLine, List.count_append, h1, h2, h3, h4, a1, a2, b1, b2, c1, c2]
  decide

theorem sqBlock_counts (l : List (List Char × Nat)) :
    (sqBlock l).count '\n' = l.length ∧ (sqBlock l).count '\t' = 2 * l.length := by
  induction l with
  | nil => simp [sqBlock]
  | cons r rest ih =>
    obtain ⟨h1, h2⟩ := sqLine_counts r.1 r.2
    obtain ⟨i1, i2⟩ := ih
    simp only [sqBlock, List.count_append, h1, h2, i1, i2, List.length_cons]
    constructor <;> omega

/-- Claim C17.  For a catalog with as many lengths as names, whatever
characters the names hold, the `@SQ` block written by `printSqLines` has as
many newline characters as there are references and twice as many tab
characters: what `printRefName` writes has no whitespace character, and the
decimal length has only digits. -/
theorem printSqLines_three_columns (cfg : SamConfig) (o : OutFileBuf)
    (hlen : cfg.reflens_.length = cfg.refnames_.length) :
    (∃ w : List Char, printSqLines cfg o = some (o ++ w) ∧
      w.count '\n' = cfg.refnames_.length ∧ w.count '\t' = 2 * cfg.refnames_.length) ∧
    (∀ (name : List Char) (b : OutFileBuf), ∃ v : List Char,
      printRefName b name = b ++ v ∧ ∀ c ∈ v, isspace c = false) ∧
    (∀ (n : Nat), ∀ c ∈ itoa10 n, c.isDigit = true) := by
  refine ⟨⟨sqBlock (cfg.refnames_.zip cfg.reflens_), printSqLines_eq cfg o hlen, ?_, ?_⟩,
    ?_, ?_⟩
  · rw [(sqBlock_counts _).1, List.length_zip, hlen, Nat.min_self]
  · rw [(sqBlock_counts _).2, List.length_zip, hlen, Nat.min_self]
  · intro name b
    refine ⟨sanitizedName name, printRefName_eq name b, ?_⟩
    intro c hc
    have h := List.mem_takeWhile_imp hc
    simpa using h
  · intro n c hc
    exact toDigits_isDigit n c hc

/-- Names with a tab, a space and a newline give three lines of three
columns; the third name, which starts with a newline, is written as the empty
name. -/
theorem printSqLines_three_columns_witness :
    spacedNamesConfig.reflens_.length = spacedNamesConfig.refnames_.length ∧
    (∃ w : List Char, printSqLines spacedNamesConfig [] = some ([] ++ w) ∧
      w.count '\n' = spacedNamesConfig.refnames_.length ∧
      w.count '\t' = 2 * spacedNamesConfig.refnames_.length) ∧
    printSqLines spacedNamesConfig [] =
      some "@SQ\tSN:chr1\tLN:10\n@SQ\tSN:chr\tLN:2000\n@SQ\tSN:\tLN:7\n".toList :=
  ⟨by decide, (printSqLines_three_columns spacedNamesConfig [] (by decide)).1, by decide⟩

/-! ## The separator state at entry -/

theorem fieldText_ne_nil (cfg : SamConfig) (exEnds : Bool) (rd : Read) (res : AlnRes)
    (flags : AlnFlags) (summ : AlnSetSumm) (mapqInp : List Char) (cnt : GapCounts)
    (hyt : flags.printYT ≠ []) (hyp : flags.printYP ≠ []) (hym : flags.printYM ≠ [])
    (t : Tag) (hact : rowActive cfg res flags summ mapqInp t = true) (hyf : t ≠ Tag.YF) :
    fieldText cfg exEnds rd res flags summ mapqInp cnt t ≠ [] := by
  cases t <;> simp only [fieldText] <;>
    first
    | exact absurd rfl hyf
    | assumption
    | exact List.append_ne_nil_of_left_ne_nil (by decide) _
    | (apply List.append_ne_nil_of_left_ne_nil
       exact List.append_ne_nil_of_left_ne_nil (by decide) _)
    | (intro h
       simp [rowActive, h] at hact)

theorem renderFields_first_relation (cfg : SamConfig) (exEnds : Bool) (rd : Read)
    (res : AlnRes) (flags : AlnFlags) (summ : AlnSetSumm) (mapqInp : List Char)
    (cnt : GapCounts) (ts : List Tag) (o : OutFileBuf) (hyf : Tag.YF ∉ ts)
    (hne : ∀ t ∈ ts, fieldText cfg exEnds rd res flags summ mapqInp cnt t ≠ []) :
    ∃ wT wF : List Char,
      (renderFields cfg exEnds rd res flags summ mapqInp cnt (o, true) ts).1 = o ++ wT ∧
      (renderFields cfg exEnds rd res flags summ mapqInp cnt (o, false) ts).1 = o ++ wF ∧
      (wT ≠ [] → wF = '\t' :: wT) ∧ (wT = [] → wF = []) := by
  refine ⟨joined (ts.map (fieldText cfg exEnds rd res flags summ mapqInp cnt)),
    tabbed (ts.map (fieldText cfg exEnds rd res flags summ mapqInp cnt)),
    renderFields_true cfg exEnds rd res flags summ mapqInp cnt ts o hyf, ?_, ?_, ?_⟩
  · rw [renderFields_false cfg exEnds rd res flags summ mapqInp cnt ts o hyf]
  · intro _
    rcases ts with _ | ⟨t, rest⟩
    · simp_all [joined]
    · simp [joined, tabbed]
  · intro h
    rcases ts with _ | ⟨t, rest⟩
    · simp [tabbed]
    · have h1 := hne t (List.mem_cons_self _ _)
      simp [joined, h1] at h

/-- Claim C18.  On an input on which the `YF` field is not emitted and the
`YT`, `YP` and `YM` renderings write a field that is not empty, for
`printAlignedOptFlags` and for `printEmptyOptFlags`: the bytes written with
`first = false` are one tab followed by the bytes written with `first = true`
when the latter are not empty, and are empty when the latter are empty. -/
theorem first_false_adds_one_tab (cfg : SamConfig) (o : OutFileBuf) (exEnds : Bool)
    (rd : Read) (res : AlnRes) (flags : AlnFlags) (summ : AlnSetSumm) (mapqInp : List Char)
    (hn : res.ned.length < 2 ^ 64)
    (hYF : (cfg.print_yf_ && flags.filtered) = false)
    (hyt : flags.printYT ≠ []) (hyp : flags.printYP ≠ []) (hym : flags.printYM ≠ []) :
    (∃ wT wF : List Char,
      printAlignedOptFlags cfg o true exEnds rd res flags summ mapqInp = some (o ++ wT) ∧
      printAlignedOptFlags cfg o false exEnds rd res flags summ mapqInp = some (o ++ wF) ∧
      (wT ≠ [] → wF = '\t' :: wT) ∧ (wT = [] → wF = [])) ∧
    (∃ vT vF : List Char,
      printEmptyOptFlags cfg o true flags summ = o ++ vT ∧
      printEmptyOptFlags cfg o false flags summ = o ++ vF ∧
      (vT ≠ [] → vF = '\t' :: vT) ∧ (vT = [] → vF = [])) := by
  have hyfA := YF_not_mem_activeTags cfg res flags summ mapqInp hYF
  have hyfE : Tag.YF ∉ emptyTags.filter (rowActive cfg res flags summ mapqInp) := by
    intro h
    have := (List.mem_filter.mp h).2
    simp [rowActive, hYF] at this
  constructor
  · obtain ⟨wT, wF, h1, h2, h3, h4⟩ := renderFields_first_relation cfg exEnds rd res flags
      summ mapqInp (gapMachine res.ned) (activeTags cfg res flags summ mapqInp) o hyfA
      (fun t ht => fieldText_ne_nil cfg exEnds rd res flags summ mapqInp _ hyt hyp hym t
        ((mem_activeTags cfg res flags summ mapqInp t).mp ht)
        (fun e => hyfA (e ▸ ht)))
    refine ⟨wT, wF, ?_, ?_, h3, h4⟩
    · rw [printAlignedOptFlags_some_render _ _ _ _ _ _ _ _ _ hn, h1]
    · rw [printAlignedOptFlags_some_render _ _ _ _ _ _ _ _ _ hn, h2]
  · obtain ⟨vT, vF, h1, h2, h3, h4⟩ := renderFields_first_relation cfg exEnds rd res flags
      summ mapqInp (gapMachine res.ned)
      (emptyTags.filter (rowActive cfg res flags summ mapqInp)) o hyfE
      (fun t ht => fieldText_ne_nil cfg exEnds rd res flags summ mapqInp _ hyt hyp hym t
        (List.mem_filter.mp ht).2 (fun e => hyfE (e ▸ ht)))
    refine ⟨vT, vF, ?_, ?_, h3, h4⟩
    · rw [printEmptyOptFlags_eq_render cfg o true flags summ exEnds rd res mapqInp
        (gapMachine res.ned), h1]
    · rw [printEmptyOptFlags_eq_render cfg o false flags summ exEnds rd res mapqInp
        (gapMachine res.ned), h2]

/-- After the mandatory columns (`first = false`) the four fields get one
tab before the first of them and none after the last; with no field to write
nothing is added. -/
theorem first_false_adds_one_tab_witness :
    (plainRes.ned.length < 2 ^ 64 ∧
      (fourFieldConfig.print_yf_ && plainFlags.filtered) = false ∧
      plainFlags.printYT ≠ [] ∧ plainFlags.printYP ≠ [] ∧ plainFlags.printYM ≠ []) ∧
    (∃ wT wF : List Char,
      printAlignedOptFlags fourFieldConfig [] true false plainRead plainRes plainFlags
        plainSumm [] = some ([] ++ wT) ∧
      printAlignedOptFlags fourFieldConfig [] false false plainRead plainRes plainFlags
        plainSumm [] = some ([] ++ wF) ∧
      (wT ≠ [] → wF = '\t' :: wT) ∧ (wT = [] → wF = [])) ∧
    printAlignedOptFlags fourFieldConfig [] true false plainRead plainRes plainFlags
      plainSumm [] = some "AS:i:-6\tXM:i:1\tNM:i:3\tYT:Z:UU".toList ∧
    printAlignedOptFlags fourFieldConfig [] false false plainRead plainRes plainFlags
      plainSumm [] = some "\tAS:i:-6\tXM:i:1\tNM:i:3\tYT:Z:UU".toList ∧
    printEmptyOptFlags fourFieldConfig [] true plainFlags plainSumm = "YT:Z:UU".toList ∧
    printEmptyOptFlags fourFieldConfig [] false plainFlags plainSumm = "\tYT:Z:UU".toList ∧
    printEmptyOptFlags emptyConfig [] false plainFlags plainSumm = [] :=
  ⟨by decide,
    (first_false_adds_one_tab fourFieldConfig [] false plainRead plainRes plainFlags plainSumm
      [] (by decide) (by decide) (by decide) (by decide) (by decide)).1,
    by decide, by decide, by decide, by decide, by decide⟩

/-! ## The gap-run scan: termination and bounds -/

/-- Claim C19.  On an edit list that fits a `size_t` index the gap-run scan
returns: the fuel does not run out and no element access is out of bounds,
and any larger fuel gives the same result.  Whenever an inner loop is entered
(index `i` below the size, so the size is at least 1) the unsigned `size-1`
is the size minus one, without wrap, the loop returns with an index `j` such
that `i ≤ j < size`, and the outer loop goes on at `j + 1`, above `i`. -/
theorem gapScan_terminates_in_bounds (ned : List Edit) (hn : ned.length < 2 ^ 64) :
    (∃ cnt, gapScan ned = some cnt) ∧
    (∀ fuel, ned.length < fuel → scanLoop ned fuel 0 ⟨0, 0, 0⟩ = gapScan ned) ∧
    (∀ i gx, i < ned.length →
      sizeMinus1 ned.length = ned.length - 1 ∧
      (∃ j gx2, readGapLoop ned ned.length i gx = some (j, gx2) ∧ i ≤ j ∧ j < ned.length ∧
        i < j + 1) ∧
      (∃ j gx2, refGapLoop ned ned.length i gx = some (j, gx2) ∧ i ≤ j ∧ j < ned.length ∧
        i < j + 1)) := by
  refine ⟨⟨gapMachine ned, gapScan_eq_gapMachine ned hn⟩, ?_, ?_⟩
  · intro fuel hf
    rw [gapScan_eq_gapMachine ned hn,
      scanLoop_spec ned (Nat.le_of_lt hn) fuel 0 _ (Nat.zero_le _) (by omega)]
    simp [gapMachine]
  · intro i gx hi
    refine ⟨sizeMinus1_eq _ (by omega) (Nat.le_of_lt hn), ?_, ?_⟩
    · obtain ⟨j, hj, hij, hjn, _⟩ := readGapLoop_spec ned (Nat.le_of_lt hn) ned.length i gx
        ned[i] (List.getElem?_eq_getElem hi) (by omega)
      exact ⟨j, _, hj, hij, hjn, by omega⟩
    · obtain ⟨j, hj, hij, hjn, _⟩ := refGapLoop_spec ned (Nat.le_of_lt hn) ned.length i gx
        ned[i] (List.getElem?_eq_getElem hi) (by omega)
      exact ⟨j, _, hj, hij, hjn, by omega⟩

/-- The empty list and a list that ends in a gap run: the scan returns, and
the run at the end is read up to the last entry and no further. -/
theorem gapScan_terminates_in_bounds_witness :
    ([⟨1, EditKind.mismatch⟩, ⟨3, EditKind.refGap⟩, ⟨4, EditKind.refGap⟩] : List Edit).length
      < 2 ^ 64 ∧
    (∃ cnt, gapScan [⟨1, EditKind.mismatch⟩, ⟨3, EditKind.refGap⟩, ⟨4, EditKind.refGap⟩]
      = some cnt) ∧
    gapScan [⟨1, EditKind.mismatch⟩, ⟨3, EditKind.refGap⟩, ⟨4, EditKind.refGap⟩] =
      some ⟨1, 1, 2⟩ ∧
    refGapLoop [⟨1, EditKind.mismatch⟩, ⟨3, EditKind.refGap⟩, ⟨4, EditKind.refGap⟩] 3 1 1 =
      some (2, 2) ∧
    gapScan [] = some ⟨0, 0, 0⟩ ∧
    sizeMinus1 0 = 2 ^ 64 - 1 :=
  ⟨by decide,
    (gapScan_terminates_in_bounds
      [⟨1, EditKind.mismatch⟩, ⟨3, EditKind.refGap⟩, ⟨4, EditKind.refGap⟩] (by decide)).1,
    by decide, by decide, by decide, by decide⟩

/-! ## The filter-reason row: lemmas -/

theorem emitField_YF_spec (cfg : SamConfig) (exEnds : Bool) (rd : Read) (res : AlnRes)
    (flags : AlnFlags) (summ : AlnSetSumm) (mapqInp : List Char) (cnt : GapCounts)
    (yfText : List Char) (hspec : flags.printYF = printYFSpec yfText)
    (s : OutFileBuf × Bool) :
    emitField cfg exEnds rd res flags summ mapqInp cnt s Tag.YF =
      if yfText = [] then s
      else ((if s.2 then s.1 else s.1 ++ ['\t']) ++ yfText, false) := by
  rcases s with ⟨a, b⟩
  rcases yfText with _ | ⟨c, r⟩ <;> cases b <;>
    simp [emitField, hspec, printYFSpec]

theorem renderFields_written_false (cfg : SamConfig) (exEnds : Bool) (rd : Read)
    (res : AlnRes) (flags : AlnFlags) (summ : AlnSetSumm) (mapqInp : List Char)
    (cnt : GapCounts) (yfText : List Char) (ts : List Tag) :
    ∀ o : OutFileBuf, (Tag.YF ∈ ts → flags.printYF = printYFSpec yfText) →
      renderFields cfg exEnds rd res flags summ mapqInp cnt (o, false) ts =
        (o ++ tabbed ((ts.filter (rowWrites yfText)).map
          (writtenText cfg exEnds rd res flags summ mapqInp cnt yfText)), false) := by
  induction ts with
  | nil => intro o _; simp [renderFields, tabbed]
  | cons t rest ih =>
    intro o hspec
    have hrest : Tag.YF ∈ rest → flags.printYF = printYFSpec yfText :=
      fun h => hspec (List.mem_cons_of_mem _ h)
    by_cases ht : t = Tag.YF
    · subst ht
      have hstep := emitField_YF_spec cfg exEnds rd res flags summ mapqInp cnt yfText
        (hspec (List.mem_cons_self _ _)) (o, false)
      by_cases hy : yfText = []
      · have h := ih o hrest
        simp only [renderFields, List.foldl_cons] at h ⊢
        rw [hstep, if_pos hy, h]
        simp [List.filter_cons, rowWrites, hy]
      · have h := ih (o ++ ['\t'] ++ yfText) hrest
        simp only [renderFields, List.foldl_cons] at h ⊢
        rw [hstep, if_neg hy]
        simp only [Bool.false_eq_true, if_false]
        rw [h]
        simp [List.filter_cons, rowWrites, hy, writtenText, tabbed, List.append_assoc]
    · have hstep : emitField cfg exEnds rd res flags summ mapqInp cnt (o, false) t =
          (o ++ ['\t'] ++ fieldText cfg exEnds rd res flags summ mapqInp cnt t, false) := by
        cases t <;> first | exact absurd rfl ht | rfl
      have h := ih (o ++ ['\t'] ++ fieldText cfg exEnds rd res flags summ mapqInp cnt t) hrest
      simp only [renderFields, List.foldl_cons] at h ⊢
      rw [hstep, h]
      simp [List.filter_cons, rowWrites, ht, writtenText, tabbed, List.append_assoc]

theorem renderFields_written_true (cfg : SamConfig) (exEnds : Bool) (rd : Read)
    (res : AlnRes) (flags : AlnFlags) (summ : AlnSetSumm) (mapqInp : List Char)
    (cnt : GapCounts) (yfText : List Char) (ts : List Tag) :
    ∀ o : OutFileBuf, (Tag.YF ∈ ts → flags.printYF = printYFSpec yfText) →
      (renderFields cfg exEnds rd res flags summ mapqInp cnt (o, true) ts).1 =
        o ++ joined ((ts.filter (rowWrites yfText)).map
          (writtenText cfg exEnds rd res flags summ mapqInp cnt yfText)) := by
  induction ts with
  | nil => intro o _; simp [renderFields, joined]
  | cons t rest ih =>
    intro o hspec
    have hrest : Tag.YF ∈ rest → flags.printYF = printYFSpec yfText :=
      fun h => hspec (List.mem_cons_of_mem _ h)
    by_cases ht : t = Tag.YF
    · subst ht
      have hstep := emitField_YF_spec cfg exEnds rd res flags summ mapqInp cnt yfText
        (hspec (List.mem_cons_self _ _)) (o, true)
      by_cases hy : yfText = []
      · have h := ih o hrest
        simp only [renderFields, List.foldl_cons] at h ⊢
        rw [hstep, if_pos hy, h]
        simp [List.filter_cons, rowWrites, hy]
      · have h := renderFields_written_false cfg exEnds rd res flags summ mapqInp cnt yfText
          rest (o ++ yfText) hrest
        simp only [renderFields, List.foldl_cons] at h ⊢
        rw [hstep, if_neg hy]
        simp only [if_true]
        rw [h]
        simp [List.filter_cons, rowWrites, hy, writtenText, joined, List.append_assoc]
    · have hstep : emitField cfg exEnds rd res flags summ mapqInp cnt (o, true) t =
          (o ++ fieldText cfg exEnds rd res flags summ mapqInp cnt t, false) := by
        cases t <;> first | exact absurd rfl ht | rfl
      have h := renderFields_written_false cfg exEnds rd res flags summ mapqInp cnt yfText
        rest (o ++ fieldText cfg exEnds rd res flags summ mapqInp cnt t) hrest
      simp only [renderFields, List.foldl_cons] at h ⊢
      rw [hstep, h]
      simp [List.filter_cons, rowWrites, ht, writtenText, joined, List.append_assoc]

theorem renderFields_written (cfg : SamConfig) (exEnds : Bool) (rd : Read)
    (res : AlnRes) (flags : AlnFlags) (summ : AlnSetSumm) (mapqInp : List Char)
    (cnt : GapCounts) (yfText : List Char) (ts : List Tag) (o : OutFileBuf) (first : Bool)
    (hspec : Tag.YF ∈ ts → flags.printYF = printYFSpec yfText) :
    (renderFields cfg exEnds rd res flags summ mapqInp cnt (o, first) ts).1 =
      o ++ (if first
        then joined ((ts.filter (rowWrites yfText)).map
          (writtenText cfg exEnds rd res flags summ mapqInp cnt yfText))
        else tabbed ((ts.filter (rowWrites yfText)).map
          (writtenText cfg exEnds rd res flags summ mapqInp cnt yfText))) := by
  cases first
  · rw [renderFields_written_false cfg exEnds rd res flags summ mapqInp cnt yfText ts o hspec]
    simp
  · rw [renderFields_written_true cfg exEnds rd res flags summ mapqInp cnt yfText ts o hspec]
    simp

theorem map_writtenText_of_not_mem (cfg : SamConfig) (exEnds : Bool) (rd : Read)
    (res : AlnRes) (flags : AlnFlags) (summ : AlnSetSumm) (mapqInp : List Char)
    (cnt : GapCounts) (yfText : List Char) (ts : List Tag) (h : Tag.YF ∉ ts) :
    (ts.filter (rowWrites yfText)).map
        (writtenText cfg exEnds rd res flags summ mapqInp cnt yfText) =
      ts.map (fieldText cfg exEnds rd res flags summ mapqInp cnt) := by
  induction ts with
  | nil => simp
  | cons t rest ih =>
    have ht : t ≠ Tag.YF := fun e => h (e ▸ List.mem_cons_self _ _)
    have hrest : Tag.YF ∉ rest := fun e => h (List.mem_cons_of_mem _ e)
    simp [List.filter_cons, rowWrites, ht, writtenText, ih hrest]

theorem written_split (cfg : SamConfig) (exEnds : Bool) (rd : Read)
    (res : AlnRes) (flags : AlnFlags) (summ : AlnSetSumm) (mapqInp : List Char)
    (cnt : GapCounts) (yfText : List Char) (l1 l2 : List Tag)
    (h1 : Tag.YF ∉ l1) (h2 : Tag.YF ∉ l2) :
    ((l1 ++ Tag.YF :: l2).filter (rowWrites yfText)).map
        (writtenText cfg exEnds rd res flags summ mapqInp cnt yfText) =
      l1.map (fieldText cfg exEnds rd res flags summ mapqInp cnt) ++
        ((if yfText = [] then [] else [yfText]) ++
          l2.map (fieldText cfg exEnds rd res flags summ mapqInp cnt)) := by
  rw [List.filter_append, List.map_append,
    map_writtenText_of_not_mem cfg exEnds rd res flags summ mapqInp cnt yfText l1 h1,
    List.filter_cons]
  by_cases hy : yfText = []
  · simp [rowWrites, hy,
      map_writtenText_of_not_mem cfg exEnds rd res flags summ mapqInp cnt [] l2 h2]
  · simp [rowWrites, hy, writtenText,
      map_writtenText_of_not_mem cfg exEnds rd res flags summ mapqInp cnt yfText l2 h2]

theorem activeTags_split (cfg : SamConfig) (res : AlnRes) (flags : AlnFlags)
    (summ : AlnSetSumm) (mapqInp : List Char)
    (hyf : cfg.print_yf_ = true) (hfilt : flags.filtered = true) :
    activeTags cfg res flags summ mapqInp =
      tagsBeforeYF.filter (rowActive cfg res flags summ mapqInp) ++
        Tag.YF :: tagsAfterYF.filter (rowActive cfg res flags summ mapqInp) := by
  have hall : allTags = tagsBeforeYF ++ Tag.YF :: tagsAfterYF := rfl
  have hact : rowActive cfg res flags summ mapqInp Tag.YF = true := by
    simp [rowActive, hyf, hfilt]
  rw [activeTags, hall, List.filter_append, List.filter_cons, if_pos hact]

theorem emptyTags_split (cfg : SamConfig) (res : AlnRes) (flags : AlnFlags)
    (summ : AlnSetSumm) (mapqInp : List Char)
    (hyf : cfg.print_yf_ = true) (hfilt : flags.filtered = true) :
    emptyTags.filter (rowActive cfg res flags summ mapqInp) =
      emptyTagsBeforeYF.filter (rowActive cfg res flags summ mapqInp) ++
        Tag.YF :: emptyTagsAfterYF.filter (rowActive cfg res flags summ mapqInp) := by
  have hall : emptyTags = emptyTagsBeforeYF ++ Tag.YF :: emptyTagsAfterYF := rfl
  have hact : rowActive cfg res flags summ mapqInp Tag.YF = true := by
    simp [rowActive, hyf, hfilt]
  rw [hall, List.filter_append, List.filter_cons, if_pos hact]

theorem YF_not_mem_filter (p : Tag → Bool) (l : List Tag) (h : Tag.YF ∉ l) :
    Tag.YF ∉ l.filter p :=
  fun hm => h (List.mem_filter.mp hm).1

theorem printAlignedOptFlags_YF_spec (cfg : SamConfig) (o : OutFileBuf)
    (first exEnds : Bool) (rd : Read) (res : AlnRes) (flags : AlnFlags) (summ : AlnSetSumm)
    (mapqInp : List Char) (yfText : List Char) (hn : res.ned.length < 2 ^ 64)
    (hyf : cfg.print_yf_ = true) (hfilt : flags.filtered = true)
    (hspec : flags.printYF = printYFSpec yfText) :
    printAlignedOptFlags cfg o first exEnds rd res flags summ mapqInp =
      some (o ++ (if first
        then joined
          ((tagsBeforeYF.filter (rowActive cfg res flags summ mapqInp)).map
              (fieldText cfg exEnds rd res flags summ mapqInp (gapMachine res.ned)) ++
            ((if yfText = [] then [] else [yfText]) ++
              (tagsAfterYF.filter (rowActive cfg res flags summ mapqInp)).map
                (fieldText cfg exEnds rd res flags summ mapqInp (gapMachine res.ned))))
        else tabbed
          ((tagsBeforeYF.filter (rowActive cfg res flags summ mapqInp)).map
              (fieldText cfg exEnds rd res flags summ mapqInp (gapMachine res.ned)) ++
            ((if yfText = [] then [] else [yfText]) ++
              (tagsAfterYF.filter (rowActive cfg res flags summ mapqInp)).map
                (fieldText cfg exEnds rd res flags summ mapqInp (gapMachine res.ned)))))) := by
  rw [printAlignedOptFlags_some_render _ _ _ _ _ _ _ _ _ hn,
    renderFields_written cfg exEnds rd res flags summ mapqInp _ yfText _ o first
      (fun _ => hspec),
    activeTags_split cfg res flags summ mapqInp hyf hfilt,
    written_split cfg exEnds rd res flags summ mapqInp _ yfText _ _
      (YF_not_mem_filter _ _ (by decide)) (YF_not_mem_filter _ _ (by decide))]

theorem printEmptyOptFlags_YF_spec (cfg : SamConfig) (o : OutFileBuf)
    (first exEnds : Bool) (rd : Read) (res : AlnRes) (flags : AlnFlags) (summ : AlnSetSumm)
    (mapqInp : List Char) (cnt : GapCounts) (yfText : List Char)
    (hyf : cfg.print_yf_ = true) (hfilt : flags.filtered = true)
    (hspec : flags.printYF = printYFSpec yfText) :
    printEmptyOptFlags cfg o first flags summ =
      o ++ (if first
        then joined
          ((emptyTagsBeforeYF.filter (rowActive cfg res flags summ mapqInp)).map
              (fieldText cfg exEnds rd res flags summ mapqInp cnt) ++
            ((if yfText = [] then [] else [yfText]) ++
              (emptyTagsAfterYF.filter (rowActive cfg res flags summ mapqInp)).map
                (fieldText cfg exEnds rd res flags summ mapqInp cnt)))
        else tabbed
          ((emptyTagsBeforeYF.filter (rowActive cfg res flags summ mapqInp)).map
              (fieldText cfg exEnds rd res flags summ mapqInp cnt) ++
            ((if yfText = [] then [] else [yfText]) ++
              (emptyTagsAfterYF.filter (rowActive cfg res flags summ mapqInp)).map
                (fieldText cfg exEnds rd res flags summ mapqInp cnt)))) := by
  rw [printEmptyOptFlags_eq_render cfg o first flags summ exEnds rd res mapqInp cnt,
    renderFields_written cfg exEnds rd res flags summ mapqInp _ yfText _ o first
      (fun _ => hspec),
    emptyTags_split cfg res flags summ mapqInp hyf hfilt,
    written_split cfg exEnds rd res flags summ mapqInp _ yfText _ _
      (YF_not_mem_filter _ _ (by decide)) (YF_not_mem_filter _ _ (by decide))]

/-! ## The filter-reason row: verified properties -/

/-- Claim C16.  With `printYF` writing its own leading tab when it is not the
first field and reporting whether it wrote through the separator state it
returns, with the `YF` toggle on and filtered flags, in
`printAlignedOptFlags` and in `printEmptyOptFlags`: when `YF` wrote, the
output is the fields before it, the `YF` field and the fields after it (`YI`,
the read group) with exactly one tab between neighbours, preceded by a tab
only when `first` is false; so when `YF` is the first field written, the
output starts with the `YF` field and every later field comes after one tab.
When `YF` wrote nothing, the output is that of the other fields alone: the
fields after `YF` see the separator state that was there before it. -/
theorem printYF_keeps_separators (cfg : SamConfig) (o : OutFileBuf)
    (first exEnds : Bool) (rd : Read) (res : AlnRes) (flags : AlnFlags) (summ : AlnSetSumm)
    (mapqInp : List Char) (yfText : List Char) (hn : res.ned.length < 2 ^ 64)
    (hyf : cfg.print_yf_ = true) (hfilt : flags.filtered = true)
    (hspec : flags.printYF = printYFSpec yfText) :
    (yfText ≠ [] →
      printAlignedOptFlags cfg o first exEnds rd res flags summ mapqInp =
        some (o ++ (if first
          then joined ((tagsBeforeYF.filter (rowActive cfg res flags summ mapqInp)).map
          (fieldText cfg exEnds rd res flags summ mapqInp (gapMachine res.ned)) ++ yfText :: (tagsAfterYF.filter (rowActive cfg res flags summ mapqInp)).map
          (fieldText cfg exEnds rd res flags summ mapqInp (gapMachine res.ned)))
          else tabbed ((tagsBeforeYF.filter (rowActive cfg res flags summ mapqInp)).map
          (fieldText cfg exEnds rd res flags summ mapqInp (gapMachine res.ned)) ++ yfText :: (tagsAfterYF.filter (rowActive cfg res flags summ mapqInp)).map
          (fieldText cfg exEnds rd res flags summ mapqInp (gapMachine res.ned))))) ∧
      printEmptyOptFlags cfg o first flags summ =
        o ++ (if first
          then joined ((emptyTagsBeforeYF.filter (rowActive cfg res flags summ mapqInp)).map
          (fieldText cfg exEnds rd res flags summ mapqInp (gapMachine res.ned)) ++ yfText :: (emptyTagsAfterYF.filter (rowActive cfg res flags summ mapqInp)).map
          (fieldText cfg exEnds rd res flags summ mapqInp (gapMachine res.ned)))
          else tabbed ((emptyTagsBeforeYF.filter (rowActive cfg res flags summ mapqInp)).map
          (fieldText cfg exEnds rd res flags summ mapqInp (gapMachine res.ned)) ++ yfText :: (emptyTagsAfterYF.filter (rowActive cfg res flags summ mapqInp)).map
          (fieldText cfg exEnds rd res flags summ mapqInp (gapMachine res.ned))))) ∧
    (yfText ≠ [] → first = true →
      (tagsBeforeYF.filter (rowActive cfg res flags summ mapqInp) = [] →
        printAlignedOptFlags cfg o first exEnds rd res flags summ mapqInp =
          some (o ++ yfText ++ tabbed ((tagsAfterYF.filter (rowActive cfg res flags summ mapqInp)).map
          (fieldText cfg exEnds rd res flags summ mapqInp (gapMachine res.ned))))) ∧
      (emptyTagsBeforeYF.filter (rowActive cfg res flags summ mapqInp) = [] →
        printEmptyOptFlags cfg o first flags summ =
          o ++ yfText ++ tabbed ((emptyTagsAfterYF.filter (rowActive cfg res flags summ mapqInp)).map
          (fieldText cfg exEnds rd res flags summ mapqInp (gapMachine res.ned))))) ∧
    (yfText = [] →
      printAlignedOptFlags cfg o first exEnds rd res flags summ mapqInp =
        some (o ++ (if first
          then joined ((tagsBeforeYF.filter (rowActive cfg res flags summ mapqInp)).map
          (fieldText cfg exEnds rd res flags summ mapqInp (gapMachine res.ned)) ++ (tagsAfterYF.filter (rowActive cfg res flags summ mapqInp)).map
          (fieldText cfg exEnds rd res flags summ mapqInp (gapMachine res.ned)))
          else tabbed ((tagsBeforeYF.filter (rowActive cfg res flags summ mapqInp)).map
          (fieldText cfg exEnds rd res flags summ mapqInp (gapMachine res.ned)) ++ (tagsAfterYF.filter (rowActive cfg res flags summ mapqInp)).map
          (fieldText cfg exEnds rd res flags summ mapqInp (gapMachine res.ned))))) ∧
      printEmptyOptFlags cfg o first flags summ =
        o ++ (if first
          then joined ((emptyTagsBeforeYF.filter (rowActive cfg res flags summ mapqInp)).map
          (fieldText cfg exEnds rd res flags summ mapqInp (gapMachine res.ned)) ++ (emptyTagsAfterYF.filter (rowActive cfg res flags summ mapqInp)).map
          (fieldText cfg exEnds rd res flags summ mapqInp (gapMachine res.ned)))
          else tabbed ((emptyTagsBeforeYF.filter (rowActive cfg res flags summ mapqInp)).map
          (fieldText cfg exEnds rd res flags summ mapqInp (gapMachine res.ned)) ++ (emptyTagsAfterYF.filter (rowActive cfg res flags summ mapqInp)).map
          (fieldText cfg exEnds rd res flags summ mapqInp (gapMachine res.ned))))) := by
  have hA := printAlignedOptFlags_YF_spec cfg o first exEnds rd res flags summ mapqInp yfText
    hn hyf hfilt hspec
  have hE := printEmptyOptFlags_YF_spec cfg o first exEnds rd res flags summ mapqInp
    (gapMachine res.ned) yfText hyf hfilt hspec
  refine ⟨?_, ?_, ?_⟩
  · intro hy
    rw [hA, hE]
    simp only [if_neg hy, List.singleton_append]
    exact ⟨trivial, trivial⟩
  · intro hy hfirst
    rw [hA, hE]
    simp only [if_neg hy, List.singleton_append, hfirst, if_true]
    constructor
    · intro hb
      rw [hb]
      simp [joined, List.append_assoc]
    · intro hb
      rw [hb]
      simp [joined, List.append_assoc]
  · intro hy
    rw [hA, hE]
    simp only [if_pos hy, List.nil_append]
    exact ⟨trivial, trivial⟩

/-- With `YF` first: the `YF` field, one tab, the next field; with nothing
to write: the next field alone, without a tab; after the mandatory columns
(`first` false): one tab before each field. -/
theorem printYF_keeps_separators_witness :
    (plainRes.ned.length < 2 ^ 64 ∧ yfYiConfig.print_yf_ = true ∧
      specFilteredFlags.filtered = true ∧
      specFilteredFlags.printYF = printYFSpec "YF:Z:NS".toList ∧
      "YF:Z:NS".toList ≠ []) ∧
    (printAlignedOptFlags yfYiConfig [] true false plainRead plainRes specFilteredFlags
        plainSumm "m".toList =
      some ([] ++ (if true
        then joined
          ((tagsBeforeYF.filter
              (rowActive yfYiConfig plainRes specFilteredFlags plainSumm "m".toList)).map
              (fieldText yfYiConfig false plainRead plainRes specFilteredFlags plainSumm
                "m".toList (gapMachine plainRes.ned)) ++
            "YF:Z:NS".toList ::
              (tagsAfterYF.filter
                (rowActive yfYiConfig plainRes specFilteredFlags plainSumm "m".toList)).map
                (fieldText yfYiConfig false plainRead plainRes specFilteredFlags plainSumm
                  "m".toList (gapMachine plainRes.ned)))
        else tabbed
          ((tagsBeforeYF.filter
              (rowActive yfYiConfig plainRes specFilteredFlags plainSumm "m".toList)).map
              (fieldText yfYiConfig false plainRead plainRes specFilteredFlags plainSumm
                "m".toList (gapMachine plainRes.ned)) ++
            "YF:Z:NS".toList ::
              (tagsAfterYF.filter
                (rowActive yfYiConfig plainRes specFilteredFlags plainSumm "m".toList)).map
                (fieldText yfYiConfig false plainRead plainRes specFilteredFlags plainSumm
                  "m".toList (gapMachine plainRes.ned)))))) ∧
    printAlignedOptFlags yfYiConfig [] true false plainRead plainRes specFilteredFlags
      plainSumm "m".toList = some "YF:Z:NS\tYI:Z:m".toList ∧
    printEmptyOptFlags yfReadGroupConfig [] true specFilteredFlags plainSumm =
      "YF:Z:NS\tRG:Z:g1".toList ∧
    printAlignedOptFlags yfYiConfig [] true false plainRead plainRes specSilentFlags
      plainSumm "m".toList = some "YI:Z:m".toList ∧
    printEmptyOptFlags yfReadGroupConfig [] true specSilentFlags plainSumm =
      "RG:Z:g1".toList ∧
    printAlignedOptFlags yfYiConfig [] false false plainRead plainRes specFilteredFlags
      plainSumm "m".toList = some "\tYF:Z:NS\tYI:Z:m".toList ∧
    printAlignedOptFlags asYfYiConfig [] false false plainRead plainRes specSilentFlags
      plainSumm "m".toList = some "\tAS:i:-6\tYI:Z:m\tRG:Z:g1".toList ∧
    printEmptyOptFlags yfReadGroupConfig [] false specFilteredFlags plainSumm =
      "\tYF:Z:NS\tRG:Z:g1".toList :=
  ⟨⟨by decide, by decide, by decide, rfl, by decide⟩,
    ((printYF_keeps_separators yfYiConfig [] true false plainRead plainRes specFilteredFlags
      plainSumm "m".toList "YF:Z:NS".toList (by decide) (by decide) (by decide) rfl).1
      (by decide)).1,
    by decide, by decide, by decide, by decide, by decide, by decide, by decide⟩

/-! ## The optional flags: the number of tabs -/

/-- Claim C1, amended.  Called with `first = true` on an input whose field
values have no tab, with the `YF` rendering writing its own leading tab when
it is not the first field and returning the separator state,
`printAlignedOptFlags` appends bytes with exactly M-1 tabs, where M is the
number of fields written: the rows whose whole condition holds (toggle and
row condition; for the read-group row, a read-group string that is not
empty), the `YF` row counted when its rendering has a field to write.  With
M = 0 it appends nothing, and with M = 1 what it appends does not start with
a tab.  M is the number of rows whose condition holds whenever the `YF`
rendering writes or the `YF` row is off. -/
theorem printAlignedOptFlags_tab_count (cfg : SamConfig) (o : OutFileBuf) (exEnds : Bool)
    (rd : Read) (res : AlnRes) (flags : AlnFlags) (summ : AlnSetSumm) (mapqInp : List Char)
    (yfText : List Char)
    (hn : res.ned.length < 2 ^ 64)
    (hspec : (cfg.print_yf_ && flags.filtered) = true → flags.printYF = printYFSpec yfText)
    (hpat : '\t' ∉ rd.patFw) (hqual : '\t' ∉ rd.qual) (hprimer : rd.primer ≠ '\t')
    (htrimc : rd.trimc ≠ '\t') (hmd : '\t' ∉ res.printMD exEnds)
    (hyt : '\t' ∉ flags.printYT) (hyp : '\t' ∉ flags.printYP) (hym : '\t' ∉ flags.printYM)
    (hmapq : '\t' ∉ mapqInp) (hrgs : '\t' ∉ cfg.rgs_) (hyftext : '\t' ∉ yfText) :
    ∃ w : List Char,
      printAlignedOptFlags cfg o true exEnds rd res flags summ mapqInp = some (o ++ w) ∧
      w.count '\t' = (writtenTags cfg res flags summ mapqInp yfText).length - 1 ∧
      ((writtenTags cfg res flags summ mapqInp yfText).length = 0 → w = []) ∧
      ((writtenTags cfg res flags summ mapqInp yfText).length = 1 → w.head? ≠ some '\t') ∧
      (yfText ≠ [] →
        writtenTags cfg res flags summ mapqInp yfText = activeTags cfg res flags summ mapqInp) ∧
      ((cfg.print_yf_ && flags.filtered) = false →
        writtenTags cfg res flags summ mapqInp yfText =
          activeTags cfg res flags summ mapqInp) := by
  have hfree : ∀ t : Tag, '\t' ∉
      writtenText cfg exEnds rd res flags summ mapqInp (gapMachine res.ned) yfText t := by
    intro t
    unfold writtenText
    split
    · exact hyftext
    · exact fieldText_no_tab cfg exEnds rd res flags summ mapqInp (gapMachine res.ned)
        hpat hqual hprimer htrimc hmd hyt hyp hym hmapq hrgs t
  have hspec2 : Tag.YF ∈ activeTags cfg res flags summ mapqInp →
      flags.printYF = printYFSpec yfText := by
    intro h
    apply hspec
    have := (mem_activeTags cfg res flags summ mapqInp Tag.YF).mp h
    simpa [rowActive] using this
  have hrender := renderFields_written_true cfg exEnds rd res flags summ mapqInp
    (gapMachine res.ned) yfText (activeTags cfg res flags summ mapqInp) o hspec2
  refine ⟨joined ((writtenTags cfg res flags summ mapqInp yfText).map
    (writtenText cfg exEnds rd res flags summ mapqInp (gapMachine res.ned) yfText)),
    ?_, ?_, ?_, ?_, ?_, ?_⟩
  · rw [printAlignedOptFlags_some_render _ _ _ _ _ _ _ _ _ hn, hrender, writtenTags]
  · generalize writtenTags cfg res flags summ mapqInp yfText = ts
    rcases ts with _ | ⟨t, rest⟩
    · simp [joined]
    · have h1 : List.count '\t'
          (writtenText cfg exEnds rd res flags summ mapqInp (gapMachine res.ned) yfText t)
            = 0 :=
        List.count_eq_zero_of_not_mem (hfree t)
      have h2 := count_tab_tabbed
        (rest.map (writtenText cfg exEnds rd res flags summ mapqInp (gapMachine res.ned)
          yfText))
        (by
          intro x hx
          obtain ⟨u, _, rfl⟩ := List.mem_map.mp hx
          exact hfree u)
      simp [joined, List.count_append, h1, h2]
  · intro h0
    rw [List.length_eq_zero.mp h0]
    rfl
  · intro h1
    obtain ⟨t, ht⟩ := List.length_eq_one.mp h1
    rw [ht]
    simp only [List.map_cons, List.map_nil, joined, tabbed, List.append_nil]
    intro hhead
    exact hfree t (List.mem_of_mem_head? hhead)
  · intro hy
    unfold writtenTags
    apply List.filter_eq_self.mpr
    intro t _
    simp [rowWrites, hy]
  · intro hoff
    unfold writtenTags
    apply List.filter_eq_self.mpr
    intro t ht
    have hne : t ≠ Tag.YF := fun e =>
      YF_not_mem_activeTags cfg res flags summ mapqInp hoff (e ▸ ht)
    simp [rowWrites, hne]

/-- With the `AS`, `YF` and `YI` toggles on, filtered flags and a read-group
string, four fields are written with three tabs between them; with the `AS`,
`XM`, `NM` and `YT` toggles on and flags that are not filtered, likewise. -/
theorem printAlignedOptFlags_tab_count_witness :
    (plainRes.ned.length < 2 ^ 64 ∧
      ((asYfYiConfig.print_yf_ && specFilteredFlags.filtered) = true →
        specFilteredFlags.printYF = printYFSpec "YF:Z:NS".toList) ∧
      '\t' ∉ plainRead.patFw ∧ '\t' ∉ plainRead.qual ∧ plainRead.primer ≠ '\t' ∧
      plainRead.trimc ≠ '\t' ∧ '\t' ∉ plainRes.printMD false ∧
      '\t' ∉ specFilteredFlags.printYT ∧ '\t' ∉ specFilteredFlags.printYP ∧
      '\t' ∉ specFilteredFlags.printYM ∧ '\t' ∉ "m".toList ∧ '\t' ∉ asYfYiConfig.rgs_ ∧
      '\t' ∉ "YF:Z:NS".toList) ∧
    printAlignedOptFlags asYfYiConfig [] true false plainRead plainRes specFilteredFlags
      plainSumm "m".toList = some "AS:i:-6\tYF:Z:NS\tYI:Z:m\tRG:Z:g1".toList ∧
    (writtenTags asYfYiConfig plainRes specFilteredFlags plainSumm "m".toList
      "YF:Z:NS".toList).length = 4 ∧
    printAlignedOptFlags fourFieldConfig [] true false plainRead plainRes plainFlags
      plainSumm "x".toList = some "AS:i:-6\tXM:i:1\tNM:i:3\tYT:Z:UU".toList ∧
    ∃ w : List Char,
      printAlignedOptFlags asYfYiConfig [] true false plainRead plainRes specFilteredFlags
        plainSumm "m".toList = some ([] ++ w) ∧
      w.count '\t' =
        (writtenTags asYfYiConfig plainRes specFilteredFlags plainSumm "m".toList
          "YF:Z:NS".toList).length - 1 ∧
      ((writtenTags asYfYiConfig plainRes specFilteredFlags plainSumm "m".toList
          "YF:Z:NS".toList).length = 0 → w = []) ∧
      ((writtenTags asYfYiConfig plainRes specFilteredFlags plainSumm "m".toList
          "YF:Z:NS".toList).length = 1 → w.head? ≠ some '\t') ∧
      ("YF:Z:NS".toList ≠ [] →
        writtenTags asYfYiConfig plainRes specFilteredFlags plainSumm "m".toList
            "YF:Z:NS".toList =
          activeTags asYfYiConfig plainRes specFilteredFlags plainSumm "m".toList) ∧
      ((asYfYiConfig.print_yf_ && specFilteredFlags.filtered) = false →
        writtenTags asYfYiConfig plainRes specFilteredFlags plainSumm "m".toList
            "YF:Z:NS".toList =
          activeTags asYfYiConfig plainRes specFilteredFlags plainSumm "m".toList) :=
  ⟨⟨by decide, fun _ => rfl, by decide, by decide, by decide, by decide, by decide,
      by decide, by decide, by decide, by decide, by decide, by decide⟩,
    by decide, by decide, by decide,
    printAlignedOptFlags_tab_count asYfYiConfig [] false plainRead plainRes specFilteredFlags
      plainSumm "m".toList "YF:Z:NS".toList
      (by decide) (fun _ => rfl) (by decide) (by decide) (by decide) (by decide) (by decide)
      (by decide) (by decide) (by decide) (by decide) (by decide) (by decide)⟩

end Sam
